import Mathlib

/-!
# rag-engine: document lifecycle and simulated chat of the front ends

Shallow embedding of `src/rag-ui/src/context/FileContext.js` (the `FileProvider`
state, its three operations and the hook `useFileContext`), of the upload
validation in `src/rag-ui/src/components/Sidebar.js` and of its drag counter, of the welcome
effect, the send handler and the simulated streamed reply in
`src/rag-ui/src/components/Chat.js`, and of the document list of
`src/rag-ui/rag-ui/src/App.jsx` and `src/rag-ui/rag-ui/src/components/Sidebar.js`.

React state is modelled by explicit state passing.  Every event handler and
every timer callback is one atomic transition (its `setState` calls are batched
into one render); `setTimeout` is modelled by a list of pending timers carrying
their due time in milliseconds, fired in order of due time.
-/

namespace RagUI

/-! ## Data model -/

/-- The fields of a browser `File` object that the front end reads. -/
structure File where
  name : String
  type : String
  size : Nat
deriving DecidableEq, Repr

/-- Sidebar.js line 6: `const MAX_FILE_SIZE = 50 * 1024 * 1024`. -/
def MAX_FILE_SIZE : Nat := 50 * 1024 * 1024

/-- The five `useState` cells of `FileProvider` (FileContext.js lines 15-19). -/
structure DocState where
  uploadedFile : Option String
  fileProcessed : Bool
  isProcessing : Bool
  uploaderKey : Nat
  newlyProcessed : Bool
deriving DecidableEq, Repr

/-- Initial values of the `useState` cells of `FileProvider`. -/
def DocState.initial : DocState :=
  { uploadedFile := none, fileProcessed := false, isProcessing := false,
    uploaderKey := 0, newlyProcessed := false }

/-- Role of a chat message. -/
inductive Role where
  | user
  | assistant
deriving DecidableEq, Repr

/-- A chat message `{ role, content }`. -/
structure ChatMessage where
  role : Role
  content : String
deriving DecidableEq, Repr

/-- The `useState` cells of the `Chat` component (Chat.js lines 7-12). -/
structure ChatState where
  messages : List ChatMessage
  input : String
  isLoading : Bool
  streamingText : String
  isStreaming : Bool
deriving DecidableEq, Repr

/-- Initial values of the `useState` cells of a freshly mounted `Chat`. -/
def ChatState.initial : ChatState :=
  { messages := [], input := "", isLoading := false, streamingText := "",
    isStreaming := false }

/-- What a pending `setTimeout` will run. -/
inductive TimerCallback where
  /-- The callback of FileContext.js lines 27-31. -/
  | processing
  /-- The callback of Chat.js lines 54-77; its closure holds the `uploadedFile`
  and the `input` of the render in which the message was sent. -/
  | reply (uploadedFile : Option String) (input : String)
  /-- The callback of Chat.js lines 65-75 for one word of a reply: `cell` names the
  `currentText` variable of that reply, `index` and `word` are the arguments of the
  `forEach` callback, `length` is `words.length`, and `responseText` is the text of
  the reply. -/
  | token (cell index : Nat) (word : String) (length : Nat) (responseText : String)
deriving DecidableEq, Repr

/-- A pending `setTimeout`: the time at which it is due and its callback. -/
structure Timer where
  due : Nat
  callback : TimerCallback
deriving DecidableEq, Repr

/-- Whole page state: the clock, the `FileProvider` state, the Sidebar's
`uploadError`, the `Chat` component state (`none` while the `/chat` route is not
rendered), the pending timers in the order they were scheduled, and the
`currentText` variables of the replies started so far (Chat.js line 61), one cell
per run of the reply callback. -/
structure App where
  now : Nat
  doc : DocState
  uploadError : String
  chat : Option ChatState
  timers : List Timer
  currentTexts : List String := []
deriving DecidableEq, Repr

/-- Page load: nothing uploaded, no error, no timer; `chat` says whether the
`Chat` component is mounted. -/
def App.initial (chat : Option ChatState) : App :=
  { now := 0, doc := DocState.initial, uploadError := "", chat := chat, timers := [] }

/-! ## JavaScript helpers -/

/-- JavaScript truthiness of a value that is `null` or a string. -/
def truthy : Option String → Bool
  | none => false
  | some s => s != ""

/-- String conversion of a value that is `null` or a string, as done by a
template literal. -/
def jsString : Option String → String
  | none => "null"
  | some s => s

/-- The value of `a || b` for `a` that is `null` or a string. -/
def jsOr (a : Option String) (b : String) : String :=
  if truthy a then jsString a else b

/-- The characters removed by `String.prototype.trim`: the ECMAScript white space
and line terminator code points. -/
def isJsWhiteSpace (c : Char) : Bool :=
  c.toNat == 0x09 || c.toNat == 0x0A || c.toNat == 0x0B || c.toNat == 0x0C
    || c.toNat == 0x0D || c.toNat == 0x20 || c.toNat == 0xA0 || c.toNat == 0x1680
    || (0x2000 ≤ c.toNat && c.toNat ≤ 0x200A) || c.toNat == 0x2028 || c.toNat == 0x2029
    || c.toNat == 0x202F || c.toNat == 0x205F || c.toNat == 0x3000 || c.toNat == 0xFEFF

/-- The method `trim` on the characters of a string. -/
def trimChars (cs : List Char) : List Char :=
  ((cs.dropWhile isJsWhiteSpace).reverse.dropWhile isJsWhiteSpace).reverse

/-- The method `String.prototype.trim`. -/
def jsTrim (s : String) : String :=
  String.mk (trimChars s.data)

/-- Splitting characters at every space: the first piece and the later pieces. -/
def splitSpaceChars : List Char → List Char × List (List Char)
  | [] => ([], [])
  | c :: cs =>
    if c = ' ' then ([], (splitSpaceChars cs).1 :: (splitSpaceChars cs).2)
    else (c :: (splitSpaceChars cs).1, (splitSpaceChars cs).2)

/-- The call `s.split(' ')`: the pieces of `s` between single spaces; it always
has at least one piece. -/
def jsSplitSpace (s : String) : List String :=
  String.mk (splitSpaceChars s.data).1 :: (splitSpaceChars s.data).2.map String.mk

/-- Two-digit rendering of a number below 100. -/
def pad2 (n : Nat) : String :=
  if n < 10 then "0" ++ toString n else toString n

/-- The text of `(size / (1024 * 1024)).toFixed(2)` for an integer `size`.
Dividing by `2^20` is exact in binary floating point for every integer below
`2^53`, and `toFixed(2)` picks the integer `n` nearest to `100 * x` (the larger
one on a tie) and prints `n / 100` with two decimals. -/
def toFixed2MB (size : Nat) : String :=
  let n := (size * 200 + 1024 * 1024) / (2 * 1024 * 1024)
  toString (n / 100) ++ "." ++ pad2 (n % 100)

/-! ## Sidebar.js: validation -/

/-- Sidebar.js line 34. -/
def typeErrorMessage : String := "Please upload a PDF file only."

/-- Sidebar.js line 40. -/
def sizeErrorMessage (size : Nat) : String :=
  "File size must be less than 50MB. Current size: " ++ toFixed2MB size ++ "MB"

/-- Sidebar.js lines 29-46.  Returns the boolean result together with the new
value of `uploadError` (the argument is its current value). -/
def validateFile (file : Option File) (uploadError : String) : Bool × String :=
  match file with
  | none => (false, uploadError)
  | some f =>
    if f.type ≠ "application/pdf" then (false, typeErrorMessage)
    else if f.size > MAX_FILE_SIZE then (false, sizeErrorMessage f.size)
    else (true, "")

/-- Sidebar.js lines 231 and 235-243: the "Remove Document" button is rendered
only under `uploadedFile && fileProcessed`. -/
def removeButtonShown (d : DocState) : Bool :=
  truthy d.uploadedFile && d.fileProcessed

/-! ## FileContext.js: the operations on the provider state -/

/-- FileContext.js lines 22-24: the state updates made by `handleFileUpload`
before it schedules its timer. -/
def DocState.handleFileUpload (file : File) (d : DocState) : DocState :=
  { d with uploadedFile := some file.name, isProcessing := true, newlyProcessed := false }

/-- FileContext.js lines 28-30: the body of the `setTimeout` callback. -/
def DocState.processingTimerCallback (d : DocState) : DocState :=
  { d with fileProcessed := true, isProcessing := false, newlyProcessed := true }

/-- FileContext.js lines 34-39. -/
def DocState.removeDocument (d : DocState) : DocState :=
  { d with uploadedFile := none, fileProcessed := false, newlyProcessed := false,
           uploaderKey := d.uploaderKey + 1 }

/-- FileContext.js lines 41-43. -/
def DocState.clearNewlyProcessedFlag (d : DocState) : DocState :=
  { d with newlyProcessed := false }

/-- FileContext.js line 31: the delay of the processing timer, in ms. -/
def PROCESSING_DELAY : Nat := 4500

/-! ## Document phases named by the specification -/

/-- The phase `empty`: no document, not processing, not processed. -/
def DocState.isEmpty (d : DocState) : Bool :=
  d.uploadedFile == none && !d.fileProcessed && !d.isProcessing

/-- The phase `processing`: being indexed and not yet processed. -/
def DocState.inProcessing (d : DocState) : Bool :=
  d.isProcessing && !d.fileProcessed

/-- The phase `processed`: indexing finished. -/
def DocState.inProcessed (d : DocState) : Bool :=
  d.fileProcessed && !d.isProcessing

/-! ## Chat.js: the welcome message and its effect -/

/-- Chat.js line 17: the text of the welcome template before `${uploadedFile}`. -/
def welcomeHead : String :=
  "🎉 **Document successfully processed!** I've analyzed **"

/-- Chat.js lines 17-26: the text of the welcome template after `${uploadedFile}`. -/
def welcomeTail : String :=
  "** and I'm ready to help you explore its contents.\n\n" ++
  "Here are some ways you can get started:\n\n" ++
  "📋 \"Summarize the main points of this document\"\n" ++
  "🔍 \"What are the key findings or conclusions?\"\n" ++
  "💡 \"Extract the most important data or statistics\"\n" ++
  "📖 \"Explain the core concepts in simple terms\"\n\n" ++
  "Feel free to ask me anything about your document!"

/-- Chat.js lines 15-27, for the `uploadedFile` of the current render. -/
def welcomeMessage (uploadedFile : Option String) : ChatMessage :=
  { role := Role.assistant,
    content := welcomeHead ++ jsString uploadedFile ++ welcomeTail }

/-- Chat.js lines 30-35: the effect run after a render of a mounted `Chat`.  It
does nothing while `Chat` is not mounted. -/
def welcomeEffect (s : App) : App :=
  match s.chat with
  | none => s
  | some c =>
    if s.doc.newlyProcessed && truthy s.doc.uploadedFile then
      { s with chat := some { c with messages := [welcomeMessage s.doc.uploadedFile] },
               doc := s.doc.clearNewlyProcessedFlag }
    else s

/-- Chat.js line 80: the chat input and the Send button are rendered only when
`fileProcessed` holds. -/
def chatEnabled (s : App) : Bool := s.doc.fileProcessed

/-- The message list held by the `Chat` component (`[]` when it is not mounted). -/
def App.messages (s : App) : List ChatMessage :=
  match s.chat with
  | none => []
  | some c => c.messages

/-- Chat.js lines 80-100 and 114: the message list is rendered only when
`fileProcessed` holds; otherwise `Chat` returns the waiting placeholder. -/
def renderedMessages (s : App) : List ChatMessage :=
  if s.doc.fileProcessed then s.messages else []

/-! ## Chat.js: sending a message and the simulated reply -/

/-- Chat.js lines 55-57: the text of the response template after `${input}`. -/
def responseTail : String :=
  "'...\n\nThis is a simulation of the Retrieval Augmented Generation process. " ++
  "In a production environment, I would have queried the vector database, " ++
  "retrieved the top-k chunks, and synthesized this answer using an LLM."

/-- Chat.js lines 55-57: the canned response, for the `uploadedFile` and the
`input` held by the closure of `handleSendMessage`. -/
def responseText (uploadedFile : Option String) (input : String) : String :=
  "Based on **" ++ jsOr uploadedFile "your document" ++ "**, here is the answer to: '"
    ++ input ++ responseTail

/-- Chat.js line 66: `currentText += (index > 0 ? ' ' : '') + word`. -/
def appendWord (currentText : String) (index : Nat) (word : String) : String :=
  currentText ++ ((if index > 0 then " " else "") ++ word)

/-- Chat.js lines 64-76: the timers set by `words.forEach`, one per word, the word
of index `i` due `i * 40` ms after `base`; `index` is the index of the first word
of the list. -/
def tokenTimers (base cell length : Nat) (responseText : String) :
    Nat → List String → List Timer
  | _, [] => []
  | index, word :: words =>
    { due := base + index * 40,
      callback := TimerCallback.token cell index word length responseText }
      :: tokenTimers base cell length responseText (index + 1) words

/-- Chat.js lines 54-76, the body of the reply callback: the response is built,
`isStreaming` is set, a fresh `currentText` is created and one timer per word is
set.  State updates of `Chat` are dropped when it is not mounted. -/
def replyCallback (uploadedFile : Option String) (input : String) (s : App) : App :=
  { s with
      chat := s.chat.map (fun c => { c with isStreaming := true }),
      currentTexts := s.currentTexts ++ [""],
      timers := s.timers ++
        tokenTimers s.now s.currentTexts.length
          (jsSplitSpace (responseText uploadedFile input)).length
          (responseText uploadedFile input) 0
          (jsSplitSpace (responseText uploadedFile input)) }

/-- Chat.js lines 65-75, the body of the callback of one word: the word is added
to `currentText`, which becomes the streaming text; for the last word the reply is
appended to the messages, the streaming text is cleared and both flags are
reset. -/
def tokenCallback (cell index : Nat) (word : String) (length : Nat) (responseText : String)
    (s : App) : App :=
  if index = length - 1 then
    { s with
        currentTexts :=
          s.currentTexts.set cell (appendWord (s.currentTexts.getD cell "") index word),
        chat := s.chat.map (fun c =>
          { c with messages := c.messages ++
                     [{ role := Role.assistant, content := responseText }],
                   streamingText := "", isStreaming := false, isLoading := false }) }
  else
    { s with
        currentTexts :=
          s.currentTexts.set cell (appendWord (s.currentTexts.getD cell "") index word),
        chat := s.chat.map (fun c =>
          { c with streamingText := appendWord (s.currentTexts.getD cell "") index word }) }

/-- Chat.js lines 45-52 and 54: `handleSendMessage`, for the render in which
`Chat` holds the state `c`: nothing happens when `input.trim()` is empty;
otherwise the user message is appended, the input is cleared, `isLoading` is set
and the reply timer of 1200 ms is set. -/
def handleSendMessage (s : App) : App :=
  match s.chat with
  | none => s
  | some c =>
    if jsTrim c.input = "" then s
    else
      { s with
          chat := some { c with messages := c.messages ++
                                  [{ role := Role.user, content := c.input }],
                                input := "", isLoading := true },
          timers := s.timers ++ [{ due := s.now + 1200,
                                   callback := TimerCallback.reply s.doc.uploadedFile c.input }] }

/-- Chat.js line 160, `onChange` of the input, which is rendered only when
`fileProcessed` holds (line 80). -/
def typeInput (text : String) (s : App) : App :=
  if s.doc.fileProcessed then { s with chat := s.chat.map (fun c => { c with input := text }) }
  else s

/-- Chat.js line 161, `onKeyPress` with the Enter key on the input, which is
rendered only when `fileProcessed` holds (line 80). -/
def pressEnter (s : App) : App :=
  if s.doc.fileProcessed then handleSendMessage s else s

/-- Chat.js line 167: the `disabled` attribute of the Send button. -/
def sendButtonDisabled (c : ChatState) : Bool :=
  jsTrim c.input == "" || c.isLoading

/-- Chat.js lines 165-171, a click on the Send button, which is rendered only
when `fileProcessed` holds (line 80) and reacts only when it is not disabled. -/
def clickSend (s : App) : App :=
  match s.chat with
  | none => s
  | some c =>
    if s.doc.fileProcessed && !sendButtonDisabled c then handleSendMessage s else s

/-! ## Page-level transitions -/

/-- Navigation to `/chat`: `Chat` mounts with fresh state and its effects run. -/
def mountChat (s : App) : App :=
  welcomeEffect { s with chat := some ChatState.initial }

/-- Whether a timer callback belongs to the `Chat` component. -/
def TimerCallback.ofChat : TimerCallback → Bool
  | TimerCallback.processing => false
  | TimerCallback.reply _ _ => true
  | TimerCallback.token _ _ _ _ _ => true

/-- Navigation away from `/chat`: the component state is dropped.  State updates
of an unmounted component are discarded, so the pending timers of the dropped
`Chat` have no further effect; they are removed here. -/
def unmountChat (s : App) : App :=
  { s with chat := none, timers := s.timers.filter (fun t => !t.callback.ofChat) }

/-- FileContext.js lines 21-32 on the page state: the state updates, the
`setTimeout` of 4500 ms, then the render with its effects. -/
def handleFileUpload (file : File) (s : App) : App :=
  welcomeEffect
    { s with doc := s.doc.handleFileUpload file,
             timers := s.timers ++ [{ due := s.now + PROCESSING_DELAY,
                                      callback := TimerCallback.processing }] }

/-- FileContext.js lines 34-39 on the page state, then the render with its
effects. -/
def removeDocument (s : App) : App :=
  welcomeEffect { s with doc := s.doc.removeDocument }

/-- Sidebar.js lines 48-51. -/
def processFileUpload (file : Option File) (s : App) : App :=
  let r := validateFile file s.uploadError
  let s1 := { s with uploadError := r.2 }
  match r.1, file with
  | true, some f => handleFileUpload f s1
  | _, _ => s1

/-! ## Timers -/

/-- What a timer callback does to the page state.  The processing callback
changes the provider state, so the render that follows runs the welcome effect; the
callbacks of `Chat` change only the state of `Chat`, which leaves the dependencies
of that effect as they are. -/
def runCallback : TimerCallback → App → App
  | TimerCallback.processing, s =>
    welcomeEffect { s with doc := s.doc.processingTimerCallback }
  | TimerCallback.reply uploadedFile input, s => replyCallback uploadedFile input s
  | TimerCallback.token cell index word length responseText, s =>
    tokenCallback cell index word length responseText s

/-- The pending timer that fires next: the least due time, and among timers due
at the same time the one scheduled first. -/
def nextTimer : List Timer → Option Timer
  | [] => none
  | t :: ts =>
    match nextTimer ts with
    | none => some t
    | some u => if u.due < t.due then some u else some t

/-- Fire the next pending timer: the clock moves to its due time (it never
moves back), the timer leaves the pending list and its callback runs. -/
def fireNext (s : App) : App :=
  match nextTimer s.timers with
  | none => s
  | some t =>
    runCallback t.callback { s with now := max s.now t.due, timers := s.timers.erase t }

/-- Fire, in order, the pending timers that are due at or before `deadline`;
`fuel` bounds the number of firings. -/
def runTimers (deadline : Nat) : Nat → App → App
  | 0, s => s
  | fuel + 1, s =>
    match nextTimer s.timers with
    | none => s
    | some t => if t.due ≤ deadline then runTimers deadline fuel (fireNext s) else s

/-- Let `ms` milliseconds pass with no user action: every timer due by then
fires, and the clock ends at `now + ms`. -/
def elapse (fuel ms : Nat) (s : App) : App :=
  { runTimers (s.now + ms) fuel s with now := s.now + ms }

/-! ## Sample inputs -/

/-- A small PDF. -/
def samplePdf : File := { name := "a.pdf", type := "application/pdf", size := 1000 }

/-- A second PDF, of exactly the largest accepted size. -/
def secondPdf : File := { name := "b.pdf", type := "application/pdf", size := 52428800 }

/-- A PDF one byte above the limit. -/
def oversizedPdf : File := { name := "big.pdf", type := "application/pdf", size := 52428801 }

/-- A text file. -/
def textFile : File := { name := "notes.txt", type := "text/plain", size := 10 }

/-- An image above the size limit. -/
def oversizedPng : File := { name := "scan.png", type := "image/png", size := 60000000 }

/-- A PDF whose `name` is the empty string. -/
def unnamedPdf : File := { name := "", type := "application/pdf", size := 1000 }

/-- A freshly loaded page showing the `/chat` route. -/
def chatPage : App := App.initial (some ChatState.initial)

/-- A freshly loaded page on another route. -/
def homePage : App := App.initial none

/-- The chat page 4500 ms after `a.pdf` was uploaded: the document is processed
and the welcome message is shown. -/
def processedPage : App :=
  elapse 1 4500 (processFileUpload (some samplePdf) chatPage)

/-- The processed page right after `b.pdf` was chosen as a replacement. -/
def replacingPage : App :=
  processFileUpload (some secondPdf) processedPage

/-- The chat page on which `a.pdf` is uploaded at time 0 and `b.pdf` at time 1000,
while the timer of `a.pdf` is still pending. -/
def secondUploadPage : App :=
  processFileUpload (some secondPdf) (elapse 2 1000 (processFileUpload (some samplePdf) chatPage))

/-! ## Sequences of provider operations -/

/-- FileContext.js lines 41-43 on the page state, then the render with its
effects. -/
def clearNewlyProcessedFlag (s : App) : App :=
  welcomeEffect { s with doc := s.doc.clearNewlyProcessedFlag }

/-- The operations that change the provider state: a call of `handleFileUpload`,
the firing of the next pending timer, a call of `removeDocument`, a call of
`clearNewlyProcessedFlag`. -/
inductive DocEvent where
  | upload (file : File)
  | timerFires
  | remove
  | clearFlag
deriving DecidableEq, Repr

/-- The effect of one provider operation on the page state. -/
def DocEvent.apply : DocEvent → App → App
  | DocEvent.upload file, s => handleFileUpload file s
  | DocEvent.timerFires, s => fireNext s
  | DocEvent.remove, s => removeDocument s
  | DocEvent.clearFlag, s => clearNewlyProcessedFlag s

/-- The page state after a sequence of provider operations. -/
def runDocEvents (events : List DocEvent) (s : App) : App :=
  events.foldl (fun acc e => e.apply acc) s

/-- The chat page with the processed `a.pdf` after the user typed `hello`. -/
def typedPage : App := typeInput "hello" processedPage

/-! ## The streamed text of a reply -/

/-- The value of `currentText` (Chat.js lines 61 and 66) after the callbacks of
the words of index 0 to `k` ran in that order. -/
def currentTextAfter (words : List String) : Nat → String
  | 0 => appendWord "" 0 (words.getD 0 "")
  | k + 1 => appendWord (currentTextAfter words k) (k + 1) (words.getD (k + 1) "")

/-- The words joined by single spaces. -/
def joinSpace : List String → String
  | [] => ""
  | [w] => w
  | w :: w' :: ws => w ++ " " ++ joinSpace (w' :: ws)

/-- The chat page with the processed `a.pdf` on which `a b c d` is sent with the
Enter key at time 4500 and, 100 ms later and while that reply is pending, `x` is
typed and sent with the Enter key. -/
def twoSendsPage : App :=
  pressEnter (typeInput "x" (elapse 1 100 (pressEnter (typeInput "a b c d" processedPage))))

/-- The same two sends with `a b c d e` as the first text. -/
def twoSendsLongPage : App :=
  pressEnter (typeInput "x" (elapse 1 100 (pressEnter (typeInput "a b c d e" processedPage))))

/-! ## Phases of the chat named by the specification -/

/-- The phase `idle`: not loading, not streaming, empty streaming text. -/
def ChatState.inIdle (c : ChatState) : Bool :=
  !c.isLoading && !c.isStreaming && c.streamingText == ""

/-- The phase `awaiting_reply`: loading, not streaming, empty streaming text. -/
def ChatState.inAwaitingReply (c : ChatState) : Bool :=
  c.isLoading && !c.isStreaming && c.streamingText == ""

/-- The phase `streaming`: loading and streaming. -/
def ChatState.inStreaming (c : ChatState) : Bool :=
  c.isLoading && c.isStreaming

/-- Whether the mounted chat is in one of the three phases. -/
def App.chatInPhase (s : App) : Bool :=
  match s.chat with
  | none => true
  | some c => c.inIdle || c.inAwaitingReply || c.inStreaming

/-! ## FileContext.js: the context value and `useFileContext` -/

/-- The object passed as `value` by `FileProvider` (FileContext.js lines 45-54):
the five state cells and the three operations. -/
structure FileContextValue where
  uploadedFile : Option String
  fileProcessed : Bool
  isProcessing : Bool
  uploaderKey : Nat
  newlyProcessed : Bool
  handleFileUpload : File → App → App
  removeDocument : App → App
  clearNewlyProcessedFlag : App → App

/-- FileContext.js lines 45-54, for the provider state held by the page. -/
def FileProvider.value (s : App) : FileContextValue :=
  { uploadedFile := s.doc.uploadedFile,
    fileProcessed := s.doc.fileProcessed,
    isProcessing := s.doc.isProcessing,
    uploaderKey := s.doc.uploaderKey,
    newlyProcessed := s.doc.newlyProcessed,
    handleFileUpload := handleFileUpload,
    removeDocument := removeDocument,
    clearNewlyProcessedFlag := clearNewlyProcessedFlag }

/-- The call `useContext(FileContext)`: the value of the enclosing `FileProvider`,
or `undefined` (here `none`) when there is none, since `createContext()` is called
without a default value (FileContext.js line 4). -/
def useContext (insideProvider : Bool) (s : App) : Option FileContextValue :=
  if insideProvider then some (FileProvider.value s) else none

/-- FileContext.js lines 6-12: `useFileContext` throws when the context is
falsy and returns it otherwise; a provider value is an object, so it is truthy. -/
def useFileContext (insideProvider : Bool) (s : App) : Except String FileContextValue :=
  match useContext insideProvider s with
  | none => Except.error "useFileContext must be used within a FileProvider"
  | some context => Except.ok context

/-! ## The document-list front end (`src/rag-ui/rag-ui/src`) -/

/-- The `kind` of a listed document. -/
inductive DocKind where
  | builtin
  | uploaded
deriving DecidableEq, Repr

/-- An entry of `docs`: the built-in entries have no `addedAt`. -/
structure Doc where
  id : String
  name : String
  kind : DocKind
  addedAt : Option String
deriving DecidableEq, Repr

/-- App.jsx lines 10-18: the `id` and `name` of the built-in documents. -/
def PRELOADED_DOCS : List (String × String) :=
  [("ai", "AI – Research Overview"),
   ("biotech", "Biotech – Genomics & Health"),
   ("climate", "Climate Science – IPCC Summary"),
   ("quantum", "Quantum Computing – Basics"),
   ("sample", "Sample Docs – ReadyTensor"),
   ("space", "Space Exploration – Missions"),
   ("sustainable", "Sustainable Energy – Case Studies")]

/-- The state cells `docs` and `activeDocId` of `App` (App.jsx lines 21-27). -/
structure DocListState where
  docs : List Doc
  activeDocId : Option String
deriving DecidableEq, Repr

/-- App.jsx lines 21-27: the built-in documents with `kind: "builtin"`, and no
active document. -/
def DocListState.initial : DocListState :=
  { docs := PRELOADED_DOCS.map
      (fun d => { id := d.1, name := d.2, kind := DocKind.builtin, addedAt := none }),
    activeDocId := none }

/-- App.jsx line 30: `docs.find((d) => d.id === activeDocId) || null`. -/
def activeDoc (s : DocListState) : Option Doc :=
  s.docs.find? (fun d => some d.id == s.activeDocId)

/-- A file chosen in the file input, with the values that `Date.now()` and
`Math.random()` (as text) return when its entry is built. -/
structure PickedFile where
  name : String
  timestamp : Nat
  random : String
deriving DecidableEq, Repr

/-- Sidebar.js line 30: the `id` of an uploaded document. -/
def uploadedId (f : PickedFile) : String :=
  f.name ++ "-" ++ toString f.timestamp ++ "-" ++ f.random

/-- Sidebar.js lines 29-34: the entry built for a chosen file, `addedAt` being
the text of the current time. -/
def uploadedDoc (addedAt : String) (f : PickedFile) : Doc :=
  { id := uploadedId f, name := f.name, kind := DocKind.uploaded, addedAt := some addedAt }

/-- Sidebar.js lines 24-40 (the document-list Sidebar). -/
def handleFileChange (files : List PickedFile) (addedAt : String) (s : DocListState) :
    DocListState :=
  if files.length = 0 then s
  else
    { docs := s.docs ++ files.map (uploadedDoc addedAt),
      activeDocId :=
        match files.map (uploadedDoc addedAt) with
        | first :: _ => if !truthy s.activeDocId then some first.id else s.activeDocId
        | [] => s.activeDocId }

/-- Sidebar.js lines 42-47 (the document-list Sidebar). -/
def removeDoc (id : String) (s : DocListState) : DocListState :=
  { docs := s.docs.filter (fun d => d.id != id),
    activeDocId := if s.activeDocId = some id then none else s.activeDocId }

/-- Sidebar.js line 113: `setActiveDocId(doc.id)`. -/
def setActiveDocId (id : Option String) (s : DocListState) : DocListState :=
  { s with activeDocId := id }

/-- The user actions on the document list: a change of the file input, a call of
`removeDoc`, a click on the row of index `index` of the rendered list. -/
inductive DocListEvent where
  | fileChange (files : List PickedFile) (addedAt : String)
  | remove (id : String)
  | selectRow (index : Nat)
deriving DecidableEq, Repr

/-- The effect of one user action; a row exists only for a listed document
(Sidebar.js lines 106-114). -/
def DocListEvent.apply : DocListEvent → DocListState → DocListState
  | DocListEvent.fileChange files addedAt, s => handleFileChange files addedAt s
  | DocListEvent.remove id, s => removeDoc id s
  | DocListEvent.selectRow index, s =>
    match s.docs[index]? with
    | some d => setActiveDocId (some d.id) s
    | none => s

/-- The state after a sequence of user actions. -/
def runDocListEvents (events : List DocListEvent) (s : DocListState) : DocListState :=
  events.foldl (fun acc e => e.apply acc) s

/-- The active document, if any, is listed. -/
def DocListState.activeListed (s : DocListState) : Prop :=
  s.activeDocId = none ∨ ∃ d ∈ s.docs, s.activeDocId = some d.id

/-- The chat page with the processed `a.pdf` and one user message, in a render in
which `newlyProcessed` is set: the state the welcome effect finds when a document
has just been processed while the chat holds messages. -/
def signalledPage : App :=
  { processedPage with
      doc := { processedPage.doc with newlyProcessed := true },
      chat := some { ChatState.initial with
                       messages := [{ role := Role.user, content := "hi" },
                                    { role := Role.assistant, content := "old reply" }] } }

/-- The chat page with the processed `a.pdf` on which `hello` was sent with the
Enter key and, 100 ms later and while that reply is pending, `x` was typed. -/
def pendingPage : App :=
  typeInput "x" (elapse 1 100 (pressEnter typedPage))

/-- The user actions offered by the document-list Sidebar: a change of the file
input, a click on the row of index `index`, a click on the X button of the row of
index `index`. -/
inductive DocListClick where
  | fileChange (files : List PickedFile) (addedAt : String)
  | selectRow (index : Nat)
  | clickRemove (index : Nat)
deriving DecidableEq, Repr

/-- The effect of one user action.  The X button is rendered only in the row of
a document of kind `uploaded` and calls `removeDoc` with the id of that row
(Sidebar.js lines 119-129); it stops the propagation of the click, so the row is
not selected. -/
def DocListClick.apply : DocListClick → DocListState → DocListState
  | DocListClick.fileChange files addedAt, s => handleFileChange files addedAt s
  | DocListClick.selectRow index, s =>
    match s.docs[index]? with
    | some d => setActiveDocId (some d.id) s
    | none => s
  | DocListClick.clickRemove index, s =>
    match s.docs[index]? with
    | some d => if d.kind = DocKind.uploaded then removeDoc d.id s else s
    | none => s

/-- The state after a sequence of user actions offered by the Sidebar. -/
def runDocListClicks (events : List DocListClick) (s : DocListState) : DocListState :=
  events.foldl (fun acc e => e.apply acc) s

/-- Two files chosen together in the file input. -/
def pickedFiles : List PickedFile :=
  [{ name := "a.pdf", timestamp := 1700000000000, random := "0.25" },
   { name := "b.pdf", timestamp := 1700000000000, random := "0.75" }]

/-! ## Sidebar.js: drag and drop -/

/-- The state cell `isDragging` and the ref `dragCounter` of the Sidebar
(Sidebar.js lines 19 and 22). -/
structure DragState where
  isDragging : Bool
  dragCounter : Int
deriving DecidableEq, Repr

/-- The values at the first render of the Sidebar. -/
def DragState.initial : DragState :=
  { isDragging := false, dragCounter := 0 }

/-- Sidebar.js lines 60-67; `hasItems` is the value of the test
`e.dataTransfer.items && e.dataTransfer.items.length > 0`. -/
def handleDragEnter (hasItems : Bool) (d : DragState) : DragState :=
  { isDragging := if hasItems then true else d.isDragging,
    dragCounter := d.dragCounter + 1 }

/-- Sidebar.js lines 69-76. -/
def handleDragLeave (d : DragState) : DragState :=
  { isDragging := if d.dragCounter - 1 = 0 then false else d.isDragging,
    dragCounter := d.dragCounter - 1 }

/-- Sidebar.js lines 83-93: the drag state is reset, and the first dropped file,
if any, goes to `processFileUpload`. -/
def handleDrop (files : List File) (p : DragState × App) : DragState × App :=
  ({ isDragging := false, dragCounter := 0 },
   match files with
   | file :: _ => processFileUpload (some file) p.2
   | [] => p.2)

/-- The drag events received by the drop area. -/
inductive DragEvent where
  | dragenter (hasItems : Bool)
  | dragleave
  | drop (files : List File)
deriving DecidableEq, Repr

/-- The effect of one drag event on the drag state and the page state. -/
def DragEvent.apply : DragEvent → DragState × App → DragState × App
  | DragEvent.dragenter hasItems, p => (handleDragEnter hasItems p.1, p.2)
  | DragEvent.dragleave, p => (handleDragLeave p.1, p.2)
  | DragEvent.drop files, p => handleDrop files p

/-- The drag state and the page state after a sequence of drag events. -/
def runDragEvents (events : List DragEvent) (p : DragState × App) : DragState × App :=
  events.foldl (fun acc e => e.apply acc) p

/-- Whether the event is a `drop`. -/
def DragEvent.isDrop : DragEvent → Bool
  | DragEvent.drop _ => true
  | _ => false

/-- Whether the event is a `dragenter`. -/
def DragEvent.isEnter : DragEvent → Bool
  | DragEvent.dragenter _ => true
  | _ => false

/-- Whether the event is a `dragleave`. -/
def DragEvent.isLeave : DragEvent → Bool
  | DragEvent.dragleave => true
  | _ => false

/-- The events that came after the last `drop`. -/
def sinceLastDrop (events : List DragEvent) : List DragEvent :=
  (events.reverse.takeWhile (fun e => !e.isDrop)).reverse

/-- At every moment of the sequence, the `dragleave` events since the last `drop`
do not outnumber the `dragenter` events since the last `drop`. -/
def leavesWithinEnters (events : List DragEvent) : Bool :=
  events.inits.all (fun p =>
    decide ((sinceLastDrop p).countP DragEvent.isLeave
      ≤ (sinceLastDrop p).countP DragEvent.isEnter))

/-- A drag that enters the drop area and a child of it, leaves the child, and
drops `a.pdf`; then a new drag enters. -/
def sampleDrag : List DragEvent :=
  [DragEvent.dragenter true, DragEvent.dragenter true, DragEvent.dragleave,
   DragEvent.drop [samplePdf], DragEvent.dragenter true]

/-- The value of `currentText` before the callback of the word of index `i` runs,
the callbacks of the earlier words having run in order. -/
def currentTextBefore (words : List String) : Nat → String
  | 0 => ""
  | k + 1 => currentTextAfter words k

/-- The chat page on which `hello` was sent about `a.pdf` at time 4500 and, 100 ms
later, `b.pdf` was chosen as a replacement while the reply is pending. -/
def replacedWhilePending : App :=
  processFileUpload (some secondPdf) (elapse 1 100 (pressEnter typedPage))

/-- The chat page on which `hello` was sent about `a.pdf` at time 4500 and, 100 ms
later, the document was removed while the reply is pending. -/
def removedWhilePending : App :=
  removeDocument (elapse 1 100 (pressEnter typedPage))

/-- The chat page 4500 ms after the PDF whose `name` is the empty string was
uploaded on a freshly loaded page: the document is processed and the chat is
enabled. -/
def unnamedProcessedPage : App :=
  elapse 1 4500 (processFileUpload (some unnamedPdf) chatPage)

/-- The chat page showing the welcome message of `a.pdf`, 4500 ms after the PDF
whose `name` is the empty string was uploaded as a replacement. -/
def unnamedReplacementPage : App :=
  elapse 1 4500 (processFileUpload (some unnamedPdf) processedPage)


/-! ## Lemmas on the error messages -/

theorem sizeErrorMessage_data (n : Nat) :
    (sizeErrorMessage n).data =
      "File size must be less than 50MB. Current size: ".data
        ++ ((toFixed2MB n).data ++ "MB".data) := by
  rw [sizeErrorMessage, String.data_append, String.data_append, List.append_assoc]

theorem sizeErrorMessage_ne_empty (n : Nat) : sizeErrorMessage n ≠ "" := by
  intro h
  have h2 := congrArg String.length h
  rw [sizeErrorMessage, String.length_append, String.length_append] at h2
  have h3 : "File size must be less than 50MB. Current size: ".length = 48 := by decide
  have h4 : "".length = 0 := rfl
  omega

theorem typeErrorMessage_ne_sizeErrorMessage (n : Nat) :
    typeErrorMessage ≠ sizeErrorMessage n := by
  intro h
  have h2 := congrArg (fun t => t.data.head?) h
  simp only [sizeErrorMessage_data] at h2
  have h3 : typeErrorMessage.data.head? = some 'P' := rfl
  have h4 : ∀ l : List Char,
      ("File size must be less than 50MB. Current size: ".data ++ l).head? = some 'F' :=
    fun _ => rfl
  rw [h3, h4] at h2
  exact absurd h2 (by decide)

theorem sizeErrorMessage_head (n : Nat) :
    "File size must be less than 50MB. Current size: ".data <+: (sizeErrorMessage n).data := by
  rw [sizeErrorMessage_data]
  exact List.prefix_append _ _

theorem sizeErrorMessage_tail (n : Nat) :
    "MB".data <:+ (sizeErrorMessage n).data := by
  rw [sizeErrorMessage_data, ← List.append_assoc]
  exact List.suffix_append _ _

/-! ## Lemmas on the welcome effect -/

theorem welcomeEffect_of_not_newly (s : App) (h : s.doc.newlyProcessed = false) :
    welcomeEffect s = s := by
  unfold welcomeEffect
  cases hc : s.chat with
  | none => rfl
  | some c => simp only [h, Bool.false_and, Bool.false_eq_true, if_false]

theorem welcomeEffect_of_unmounted (s : App) (h : s.chat = none) :
    welcomeEffect s = s := by
  unfold welcomeEffect
  rw [h]

theorem welcomeEffect_timers (s : App) : (welcomeEffect s).timers = s.timers := by
  unfold welcomeEffect
  cases hc : s.chat with
  | none => rfl
  | some c => dsimp only; split <;> rfl

theorem welcomeEffect_now (s : App) : (welcomeEffect s).now = s.now := by
  unfold welcomeEffect
  cases hc : s.chat with
  | none => rfl
  | some c => dsimp only; split <;> rfl

theorem welcomeEffect_uploadError (s : App) :
    (welcomeEffect s).uploadError = s.uploadError := by
  unfold welcomeEffect
  cases hc : s.chat with
  | none => rfl
  | some c => dsimp only; split <;> rfl

theorem welcomeEffect_doc (s : App) :
    (welcomeEffect s).doc = s.doc ∨ (welcomeEffect s).doc = s.doc.clearNewlyProcessedFlag := by
  unfold welcomeEffect
  cases hc : s.chat with
  | none => exact Or.inl rfl
  | some c =>
    dsimp only
    split
    · exact Or.inr rfl
    · exact Or.inl rfl

theorem welcomeEffect_fires (s : App) (c : ChatState) (name : String)
    (hc : s.chat = some c) (hn : s.doc.newlyProcessed = true)
    (hu : s.doc.uploadedFile = some name) (hne : name ≠ "") :
    welcomeEffect s =
      { s with chat := some { c with messages := [welcomeMessage (some name)] },
               doc := s.doc.clearNewlyProcessedFlag } := by
  unfold welcomeEffect
  have ht : truthy (some name) = true := by
    simp only [truthy, bne_iff_ne, ne_eq]
    exact hne
  rw [hc]
  simp only [hn, hu, ht, Bool.and_self, if_true]

/-! ## Lemmas on `handleFileUpload` and `removeDocument` -/

theorem handleFileUpload_eq (f : File) (s : App) :
    handleFileUpload f s =
      { s with doc := s.doc.handleFileUpload f,
               timers := s.timers ++ [{ due := s.now + PROCESSING_DELAY,
                                        callback := TimerCallback.processing }] } := by
  unfold handleFileUpload
  exact welcomeEffect_of_not_newly _ rfl

theorem handleFileUpload_timers (f : File) (s : App) :
    (handleFileUpload f s).timers =
      s.timers ++ [{ due := s.now + PROCESSING_DELAY, callback := TimerCallback.processing }] := by
  rw [handleFileUpload_eq]

theorem removeDocument_eq (s : App) :
    removeDocument s = { s with doc := s.doc.removeDocument } := by
  unfold removeDocument
  exact welcomeEffect_of_not_newly _ rfl

/-! ## Validation (Sidebar.js) -/

theorem MAX_FILE_SIZE_eq : MAX_FILE_SIZE = 52428800 := by decide

theorem validateFile_some (f : File) (e : String) :
    validateFile (some f) e =
      if f.type ≠ "application/pdf" then (false, typeErrorMessage)
      else if f.size > MAX_FILE_SIZE then (false, sizeErrorMessage f.size)
      else (true, "") := rfl

/-- C1: for a non-null file, `validateFile` returns true exactly when the type is
`application/pdf` and the size is at most 50*1024*1024 = 52,428,800 bytes; a PDF
of exactly 52,428,800 bytes is accepted and one of 52,428,801 bytes is
rejected. -/
theorem validateFile_true_iff (f : File) (e : String) :
    ((validateFile (some f) e).1 = true ↔
        f.type = "application/pdf" ∧ f.size ≤ 52428800)
    ∧ MAX_FILE_SIZE = 52428800
    ∧ (validateFile (some { f with type := "application/pdf", size := 52428800 }) e).1 = true
    ∧ (validateFile (some { f with type := "application/pdf", size := 52428801 }) e).1
        = false := by
  refine ⟨?_, MAX_FILE_SIZE_eq, ?_, ?_⟩
  · rw [validateFile_some, MAX_FILE_SIZE_eq]
    by_cases ht : f.type = "application/pdf"
    · by_cases hs : f.size > 52428800
      · simp only [ht, hs, ne_eq, not_true_eq_false, if_false, if_true]
        constructor
        · intro h; cases h
        · intro h; omega
      · simp only [ht, hs, ne_eq, not_true_eq_false, if_false]
        exact ⟨fun _ => ⟨trivial, by omega⟩, fun _ => trivial⟩
    · simp only [ht, ne_eq, not_false_eq_true, if_true, false_and]
      constructor
      · intro h; cases h
      · intro h; exact h.elim
  · rw [validateFile_some, MAX_FILE_SIZE_eq]
    simp only [ne_eq, not_true_eq_false, if_false, gt_iff_lt, lt_irrefl]
  · rw [validateFile_some, MAX_FILE_SIZE_eq]
    simp only [ne_eq, not_true_eq_false, if_false, gt_iff_lt]
    rfl

theorem validateFile_wrong_type (f : File) (e : String) (ht : f.type ≠ "application/pdf") :
    validateFile (some f) e = (false, typeErrorMessage) := by
  rw [validateFile_some, if_pos ht]

theorem validateFile_too_large (f : File) (e : String) (ht : f.type = "application/pdf")
    (hs : 52428800 < f.size) :
    validateFile (some f) e = (false, sizeErrorMessage f.size) := by
  rw [validateFile_some, if_neg (not_not.mpr ht), if_pos (by rw [MAX_FILE_SIZE_eq]; exact hs)]

theorem validateFile_valid (f : File) (e : String) (ht : f.type = "application/pdf")
    (hs : f.size ≤ 52428800) :
    validateFile (some f) e = (true, "") := by
  rw [validateFile_some, if_neg (not_not.mpr ht),
    if_neg (by rw [MAX_FILE_SIZE_eq]; omega)]

theorem processFileUpload_rejected (f : File) (s : App)
    (h : (validateFile (some f) s.uploadError).1 = false) :
    processFileUpload (some f) s =
      { s with uploadError := (validateFile (some f) s.uploadError).2 } := by
  simp only [processFileUpload, h]

theorem processFileUpload_accepted (f : File) (s : App)
    (h : (validateFile (some f) s.uploadError).1 = true) :
    processFileUpload (some f) s =
      handleFileUpload f { s with uploadError := (validateFile (some f) s.uploadError).2 } := by
  simp only [processFileUpload, h]

/-- C2: a file that fails validation (wrong type, or larger than 50MB) leaves the
five document-state fields unchanged, schedules no processing timer, and sets
`uploadError` to a non-empty string. -/
theorem processFileUpload_invalid_keeps_document (s : App) (f : File)
    (h : f.type ≠ "application/pdf" ∨ 52428800 < f.size) :
    (processFileUpload (some f) s).doc = s.doc
    ∧ (processFileUpload (some f) s).timers = s.timers
    ∧ (processFileUpload (some f) s).uploadError ≠ "" := by
  by_cases ht : f.type = "application/pdf"
  · have hs : 52428800 < f.size := h.resolve_left (not_not.mpr ht)
    have hv := validateFile_too_large f s.uploadError ht hs
    rw [processFileUpload_rejected f s (by rw [hv]), hv]
    exact ⟨rfl, rfl, sizeErrorMessage_ne_empty f.size⟩
  · have hv := validateFile_wrong_type f s.uploadError ht
    rw [processFileUpload_rejected f s (by rw [hv]), hv]
    exact ⟨rfl, rfl, (by decide : typeErrorMessage ≠ "")⟩

/-- Witness for C2: a text file of 10 bytes uploaded on a freshly loaded page. -/
theorem processFileUpload_invalid_keeps_document_witness :
    (textFile.type ≠ "application/pdf" ∨ 52428800 < textFile.size)
    ∧ (processFileUpload (some textFile) homePage).doc = homePage.doc
    ∧ (processFileUpload (some textFile) homePage).timers = homePage.timers
    ∧ (processFileUpload (some textFile) homePage).uploadError ≠ "" :=
  ⟨Or.inl (by decide),
   processFileUpload_invalid_keeps_document homePage textFile (Or.inl (by decide))⟩

/-- C3: a file whose type is not `application/pdf`, whatever its size, uploaded in
the empty state leaves the document state empty and sets `uploadError` to exactly
`Please upload a PDF file only.`; the type check comes first, so the error is
never the size message, also for an oversized file. -/
theorem processFileUpload_non_pdf (s : App) (f : File)
    (ht : f.type ≠ "application/pdf")
    (h1 : s.doc.uploadedFile = none) (h2 : s.doc.fileProcessed = false)
    (h3 : s.doc.isProcessing = false) :
    (processFileUpload (some f) s).doc.uploadedFile = none
    ∧ (processFileUpload (some f) s).doc.fileProcessed = false
    ∧ (processFileUpload (some f) s).doc.isProcessing = false
    ∧ (processFileUpload (some f) s).uploadError = "Please upload a PDF file only."
    ∧ (processFileUpload (some f) s).uploadError ≠ sizeErrorMessage f.size := by
  have hv := validateFile_wrong_type f s.uploadError ht
  rw [processFileUpload_rejected f s (by rw [hv]), hv]
  exact ⟨h1, h2, h3, rfl, typeErrorMessage_ne_sizeErrorMessage f.size⟩

/-- Witness for C3: an oversized PNG image uploaded on a freshly loaded page. -/
theorem processFileUpload_non_pdf_witness :
    oversizedPng.type ≠ "application/pdf"
    ∧ 52428800 < oversizedPng.size
    ∧ homePage.doc.uploadedFile = none
    ∧ homePage.doc.fileProcessed = false
    ∧ homePage.doc.isProcessing = false
    ∧ (processFileUpload (some oversizedPng) homePage).doc.uploadedFile = none
    ∧ (processFileUpload (some oversizedPng) homePage).doc.fileProcessed = false
    ∧ (processFileUpload (some oversizedPng) homePage).doc.isProcessing = false
    ∧ (processFileUpload (some oversizedPng) homePage).uploadError
        = "Please upload a PDF file only."
    ∧ (processFileUpload (some oversizedPng) homePage).uploadError
        ≠ sizeErrorMessage oversizedPng.size :=
  ⟨by decide, by decide, rfl, rfl, rfl,
   processFileUpload_non_pdf homePage oversizedPng (by decide) rfl rfl rfl⟩

/-- C4: a PDF larger than 52,428,800 bytes is rejected (the page state changes
in `uploadError` only: document state, chat and pending timers are as before, so
`handleFileUpload` did not run) and `uploadError` is the size message: it starts with
`File size must be less than 50MB. Current size: `, ends with `MB`, and is not the
wrong-type message. -/
theorem processFileUpload_oversized_pdf (s : App) (f : File)
    (ht : f.type = "application/pdf") (hs : 52428800 < f.size) :
    (processFileUpload (some f) s).doc = s.doc
    ∧ (processFileUpload (some f) s).timers = s.timers
    ∧ (processFileUpload (some f) s).chat = s.chat
    ∧ processFileUpload (some f) s = { s with uploadError := sizeErrorMessage f.size }
    ∧ (processFileUpload (some f) s).uploadError
        = "File size must be less than 50MB. Current size: " ++ toFixed2MB f.size ++ "MB"
    ∧ "File size must be less than 50MB. Current size: ".data
        <+: (processFileUpload (some f) s).uploadError.data
    ∧ "MB".data <:+ (processFileUpload (some f) s).uploadError.data
    ∧ (processFileUpload (some f) s).uploadError ≠ typeErrorMessage := by
  have hv := validateFile_too_large f s.uploadError ht hs
  rw [processFileUpload_rejected f s (by rw [hv]), hv]
  exact ⟨rfl, rfl, rfl, rfl, rfl, sizeErrorMessage_head f.size, sizeErrorMessage_tail f.size,
    fun h => typeErrorMessage_ne_sizeErrorMessage f.size h.symm⟩

/-- Witness for C4: a PDF of 52,428,801 bytes uploaded on a freshly loaded page. -/
theorem processFileUpload_oversized_pdf_witness :
    oversizedPdf.type = "application/pdf"
    ∧ 52428800 < oversizedPdf.size
    ∧ (processFileUpload (some oversizedPdf) homePage).doc = homePage.doc
    ∧ (processFileUpload (some oversizedPdf) homePage).timers = homePage.timers
    ∧ (processFileUpload (some oversizedPdf) homePage).uploadError
        = "File size must be less than 50MB. Current size: " ++ toFixed2MB oversizedPdf.size
            ++ "MB"
    ∧ (processFileUpload (some oversizedPdf) homePage).uploadError ≠ typeErrorMessage :=
  have h := processFileUpload_oversized_pdf homePage oversizedPdf rfl (by decide)
  ⟨rfl, by decide, h.1, h.2.1, h.2.2.2.2.1, h.2.2.2.2.2.2.2⟩

/-! ## Document lifecycle (FileContext.js) -/

theorem welcomeEffect_cases (s : App) :
    welcomeEffect s = s
    ∨ ∃ c, s.chat = some c ∧ s.doc.newlyProcessed = true ∧ truthy s.doc.uploadedFile = true
        ∧ welcomeEffect s =
            { s with chat := some { c with messages := [welcomeMessage s.doc.uploadedFile] },
                     doc := s.doc.clearNewlyProcessedFlag } := by
  obtain ⟨now, doc, err, chat, timers⟩ := s
  cases chat with
  | none => exact Or.inl rfl
  | some c =>
    by_cases h : (doc.newlyProcessed && truthy doc.uploadedFile) = true
    · refine Or.inr ⟨c, rfl, ?_, ?_, ?_⟩
      · exact (Bool.and_eq_true _ _ ▸ h).1
      · exact (Bool.and_eq_true _ _ ▸ h).2
      · simp only [welcomeEffect, h, if_true]
    · refine Or.inl ?_
      simp only [welcomeEffect]
      exact if_neg h

theorem runCallback_processing (s : App) :
    runCallback TimerCallback.processing s
      = welcomeEffect { s with doc := s.doc.processingTimerCallback } := rfl

theorem handleFileUpload_fileProcessed (f : File) (s : App) :
    (handleFileUpload f s).doc.fileProcessed = s.doc.fileProcessed := by
  rw [handleFileUpload_eq]
  rfl

/-- C5 (defect in the code): `handleFileUpload` never resets `fileProcessed`.
Replacing a processed document therefore gives a state with `isProcessing` and
`fileProcessed` both true: the new document is not in the `processing` phase,
and the chat stays enabled under the new file name before it is processed. -/
theorem handleFileUpload_replacement_stays_processed :
    processedPage.doc.inProcessed = true
    ∧ (processFileUpload (some secondPdf) processedPage).doc
      = { uploadedFile := some "b.pdf", fileProcessed := true, isProcessing := true,
          uploaderKey := 0, newlyProcessed := false }
    ∧ (processFileUpload (some secondPdf) processedPage).doc.inProcessing = false
    ∧ chatEnabled (processFileUpload (some secondPdf) processedPage) = true := by
  decide

/-- C6: `handleFileUpload` adds exactly one timer to the pending timers, due 4500
ms later; the callback of that timer sets `fileProcessed` to true, `isProcessing`
to false and `newlyProcessed` to true and leaves `uploadedFile` and `uploaderKey`
as they are.  On the page, after the render that follows the callback, the raised
`newlyProcessed` is either still set or has been consumed by the welcome effect. -/
theorem handleFileUpload_schedules_one_timer (f : File) (s s' : App) (d : DocState) :
    (handleFileUpload f s).timers
      = s.timers ++ [{ due := s.now + 4500, callback := TimerCallback.processing }]
    ∧ (handleFileUpload f s).timers.length = s.timers.length + 1
    ∧ d.processingTimerCallback.fileProcessed = true
    ∧ d.processingTimerCallback.isProcessing = false
    ∧ d.processingTimerCallback.newlyProcessed = true
    ∧ d.processingTimerCallback.uploadedFile = d.uploadedFile
    ∧ d.processingTimerCallback.uploaderKey = d.uploaderKey
    ∧ (runCallback TimerCallback.processing s').doc.fileProcessed = true
    ∧ (runCallback TimerCallback.processing s').doc.isProcessing = false
    ∧ (runCallback TimerCallback.processing s').doc.uploadedFile = s'.doc.uploadedFile
    ∧ (runCallback TimerCallback.processing s').doc.uploaderKey = s'.doc.uploaderKey
    ∧ ((runCallback TimerCallback.processing s').doc.newlyProcessed = true
        ∨ (runCallback TimerCallback.processing s').messages
            = [welcomeMessage s'.doc.uploadedFile]) := by
  refine ⟨handleFileUpload_timers f s, ?_, rfl, rfl, rfl, rfl, rfl, ?_⟩
  · rw [handleFileUpload_timers, List.length_append]
    rfl
  · rw [runCallback_processing]
    rcases welcomeEffect_cases { s' with doc := s'.doc.processingTimerCallback } with h | h
    · rw [h]
      exact ⟨rfl, rfl, rfl, rfl, Or.inl rfl⟩
    · obtain ⟨c, _, _, _, h⟩ := h
      rw [h]
      exact ⟨rfl, rfl, rfl, rfl, Or.inr rfl⟩

/-! ## Timers -/

theorem nextTimer_single (t : Timer) : nextTimer [t] = some t := rfl

theorem runTimers_single_not_due (deadline fuel : Nat) (s : App) (t : Timer)
    (ht : s.timers = [t]) (hd : deadline < t.due) :
    runTimers deadline fuel s = s := by
  cases fuel with
  | zero => rfl
  | succ k =>
    unfold runTimers
    rw [ht, nextTimer_single]
    exact if_neg (by omega)

theorem runTimers_no_timer (deadline fuel : Nat) (s : App) (ht : s.timers = []) :
    runTimers deadline fuel s = s := by
  cases fuel with
  | zero => rfl
  | succ k =>
    unfold runTimers
    rw [ht]
    rfl

theorem fireNext_single (s : App) (t : Timer) (ht : s.timers = [t]) :
    fireNext s = runCallback t.callback { s with now := max s.now t.due, timers := [] } := by
  unfold fireNext
  rw [ht, nextTimer_single]
  simp only [List.erase_cons_head]

theorem runCallback_processing_timers (s : App) :
    (runCallback TimerCallback.processing s).timers = s.timers := by
  rw [runCallback_processing, welcomeEffect_timers]

theorem runTimers_single_due (deadline fuel : Nat) (s : App) (t : Timer)
    (ht : s.timers = [t]) (hc : t.callback = TimerCallback.processing)
    (hd : t.due ≤ deadline) :
    runTimers deadline (fuel + 1) s
      = runCallback t.callback { s with now := max s.now t.due, timers := [] } := by
  unfold runTimers
  rw [ht, nextTimer_single]
  simp only [hd, if_true]
  rw [fireNext_single s t ht]
  exact runTimers_no_timer _ _ _ (by rw [hc, runCallback_processing_timers])

theorem elapse_doc (fuel ms : Nat) (s : App) :
    (elapse fuel ms s).doc = (runTimers (s.now + ms) fuel s).doc := rfl

theorem elapse_chat (fuel ms : Nat) (s : App) :
    (elapse fuel ms s).chat = (runTimers (s.now + ms) fuel s).chat := rfl

theorem elapse_timers (fuel ms : Nat) (s : App) :
    (elapse fuel ms s).timers = (runTimers (s.now + ms) fuel s).timers := rfl

theorem elapse_now (fuel ms : Nat) (s : App) : (elapse fuel ms s).now = s.now + ms := rfl

theorem elapse_messages (fuel ms : Nat) (s : App) :
    (elapse fuel ms s).messages = (runTimers (s.now + ms) fuel s).messages := rfl

/-- The page state right after a valid upload. -/
theorem processFileUpload_valid (s : App) (f : File)
    (ht : f.type = "application/pdf") (hs : f.size ≤ 52428800) :
    processFileUpload (some f) s =
      { s with uploadError := "",
               doc := s.doc.handleFileUpload f,
               timers := s.timers ++ [{ due := s.now + PROCESSING_DELAY,
                                        callback := TimerCallback.processing }] } := by
  have hv := validateFile_valid f s.uploadError ht hs
  rw [processFileUpload_accepted f s (by rw [hv]), hv, handleFileUpload_eq]

/-- C7 (defect in the code): a valid PDF whose `name` is the empty string is
uploaded on a freshly loaded chat page.  After 4500 ms the document is processed,
yet the guard `newlyProcessed && uploadedFile` of the welcome effect is false for
the empty name: no welcome message is produced and `newlyProcessed` stays set. -/
theorem upload_unnamed_no_welcome :
    (validateFile (some unnamedPdf) "").1 = true
    ∧ chatPage.doc.isEmpty = true
    ∧ chatPage.messages = []
    ∧ (processFileUpload (some unnamedPdf) chatPage).doc.inProcessing = true
    ∧ (elapse 1 4500 (processFileUpload (some unnamedPdf) chatPage)).doc.inProcessed = true
    ∧ (elapse 1 4500 (processFileUpload (some unnamedPdf) chatPage)).messages = []
    ∧ (elapse 1 4500 (processFileUpload (some unnamedPdf) chatPage)).doc.newlyProcessed
        = true := by
  decide

/-- The lifecycle of one upload away from the empty name: on a page in the empty
state with the chat mounted, an empty message list and no pending timer, one valid
PDF upload of a file whose name is not empty, followed by no other action, gives:
the `processing` phase right after
the upload and at every time before 4500 ms, with no message; from 4500 ms on the
`processed` phase, the message list being exactly the one assistant welcome
message that names the file, `newlyProcessed` cleared, no timer left, and the
welcome effect doing nothing more. -/
theorem upload_lifecycle (s : App) (c : ChatState) (f : File)
    (hempty : s.doc.isEmpty = true) (hchat : s.chat = some c) (hmsgs : c.messages = [])
    (htimers : s.timers = [])
    (ht : f.type = "application/pdf") (hs : f.size ≤ 52428800) (hname : f.name ≠ "") :
    (processFileUpload (some f) s).doc.inProcessing = true
    ∧ (processFileUpload (some f) s).doc.uploadedFile = some f.name
    ∧ (processFileUpload (some f) s).messages = []
    ∧ (∀ fuel ms, ms < 4500 →
        (elapse fuel ms (processFileUpload (some f) s)).doc
            = (processFileUpload (some f) s).doc
        ∧ (elapse fuel ms (processFileUpload (some f) s)).doc.inProcessing = true
        ∧ (elapse fuel ms (processFileUpload (some f) s)).messages = [])
    ∧ (∀ fuel ms, 1 ≤ fuel → 4500 ≤ ms →
        (elapse fuel ms (processFileUpload (some f) s)).doc.inProcessed = true
        ∧ (elapse fuel ms (processFileUpload (some f) s)).doc.fileProcessed = true
        ∧ (elapse fuel ms (processFileUpload (some f) s)).doc.isProcessing = false
        ∧ (elapse fuel ms (processFileUpload (some f) s)).doc.uploadedFile = some f.name
        ∧ (elapse fuel ms (processFileUpload (some f) s)).messages
            = [welcomeMessage (some f.name)]
        ∧ (elapse fuel ms (processFileUpload (some f) s)).doc.newlyProcessed = false
        ∧ (elapse fuel ms (processFileUpload (some f) s)).timers = []
        ∧ welcomeEffect (elapse fuel ms (processFileUpload (some f) s))
            = elapse fuel ms (processFileUpload (some f) s))
    ∧ (welcomeMessage (some f.name)).role = Role.assistant
    ∧ (∃ before after, (welcomeMessage (some f.name)).content = before ++ f.name ++ after) := by
  have hfp : s.doc.fileProcessed = false := by
    have h := hempty
    simp only [DocState.isEmpty, Bool.and_eq_true, Bool.not_eq_true'] at h
    exact h.1.2
  have hup := processFileUpload_valid s f ht hs
  rw [htimers, List.nil_append] at hup
  rw [hup]
  refine ⟨?_, rfl, ?_, ?_, ?_, rfl, ⟨_, _, rfl⟩⟩
  · simp only [DocState.inProcessing, DocState.handleFileUpload, hfp, Bool.not_false,
      Bool.and_self]
  · simp only [App.messages, hchat, hmsgs]
  · intro fuel ms hms
    have hrun := runTimers_single_not_due (s.now + ms) fuel
      { s with uploadError := "", doc := s.doc.handleFileUpload f,
               timers := [{ due := s.now + PROCESSING_DELAY,
                            callback := TimerCallback.processing }] }
      { due := s.now + PROCESSING_DELAY, callback := TimerCallback.processing } rfl
      (by show s.now + ms < s.now + 4500; omega)
    rw [elapse_doc, elapse_messages]
    dsimp only
    rw [hrun]
    refine ⟨rfl, ?_, ?_⟩
    · simp only [DocState.inProcessing, DocState.handleFileUpload, hfp, Bool.not_false,
        Bool.and_self]
    · simp only [App.messages, hchat, hmsgs]
  · intro fuel ms hfuel hms
    obtain ⟨k, rfl⟩ : ∃ k, fuel = k + 1 := ⟨fuel - 1, by omega⟩
    have hrun := runTimers_single_due (s.now + ms) k
      { s with uploadError := "", doc := s.doc.handleFileUpload f,
               timers := [{ due := s.now + PROCESSING_DELAY,
                            callback := TimerCallback.processing }] }
      { due := s.now + PROCESSING_DELAY, callback := TimerCallback.processing } rfl rfl
      (by show s.now + 4500 ≤ s.now + ms; omega)
    dsimp only at hrun
    rw [runCallback_processing] at hrun
    have hw := welcomeEffect_fires
      { s with now := max s.now (s.now + PROCESSING_DELAY),
               doc := (s.doc.handleFileUpload f).processingTimerCallback,
               uploadError := "", timers := [] }
      c f.name hchat rfl rfl hname
    rw [hw] at hrun
    have he : elapse (k + 1) ms
        { s with uploadError := "", doc := s.doc.handleFileUpload f,
                 timers := [{ due := s.now + PROCESSING_DELAY,
                              callback := TimerCallback.processing }] }
        = { s with
              now := s.now + ms,
              doc := ((s.doc.handleFileUpload f).processingTimerCallback).clearNewlyProcessedFlag,
              uploadError := "",
              chat := some { c with messages := [welcomeMessage (some f.name)] },
              timers := [] } := by
      unfold elapse
      dsimp only
      rw [hrun]
    rw [he]
    exact ⟨rfl, rfl, rfl, rfl, rfl, rfl, rfl, welcomeEffect_of_not_newly _ rfl⟩

/-- The lifecycle of `a.pdf` uploaded on a freshly loaded chat page. -/
theorem upload_lifecycle_witness :
    chatPage.doc.isEmpty = true
    ∧ chatPage.chat = some ChatState.initial
    ∧ samplePdf.type = "application/pdf" ∧ samplePdf.size ≤ 52428800 ∧ samplePdf.name ≠ ""
    ∧ (processFileUpload (some samplePdf) chatPage).doc.inProcessing = true
    ∧ (elapse 1 4499 (processFileUpload (some samplePdf) chatPage)).doc.inProcessing = true
    ∧ (elapse 1 4500 (processFileUpload (some samplePdf) chatPage)).doc.inProcessed = true
    ∧ (elapse 1 4500 (processFileUpload (some samplePdf) chatPage)).messages
        = [welcomeMessage (some "a.pdf")] :=
  have h := upload_lifecycle chatPage ChatState.initial samplePdf rfl rfl rfl rfl rfl
    (by decide) (by decide)
  ⟨rfl, rfl, rfl, by decide, by decide, h.1, (h.2.2.2.1 1 4499 (by decide)).2.1,
   (h.2.2.2.2.1 1 4500 (by decide) (by decide)).1,
   (h.2.2.2.2.1 1 4500 (by decide) (by decide)).2.2.2.2.1⟩

/-! ## Removal -/

/-- C8 (counterexample): while `b.pdf` replaces a processed document the Remove
button is shown, and `removeDocument` then leaves `isProcessing` true, so the
state after removal is not `empty`. -/
theorem removeDocument_while_processing_not_empty :
    removeButtonShown replacingPage.doc = true
    ∧ (removeDocument replacingPage).doc.isProcessing = true
    ∧ ¬ ((removeDocument replacingPage).doc.uploadedFile = none
          ∧ (removeDocument replacingPage).doc.fileProcessed = false
          ∧ (removeDocument replacingPage).doc.isProcessing = false
          ∧ (removeDocument replacingPage).doc.newlyProcessed = false) := by
  decide

/-- C8 (amended): from every document state in which `isProcessing` is false, in
particular from the `processed` phase, `removeDocument` gives the `empty` state:
`uploadedFile` null, `fileProcessed`, `isProcessing` and `newlyProcessed` false. -/
theorem removeDocument_gives_empty (s : App) (h : s.doc.isProcessing = false) :
    (removeDocument s).doc.uploadedFile = none
    ∧ (removeDocument s).doc.fileProcessed = false
    ∧ (removeDocument s).doc.isProcessing = false
    ∧ (removeDocument s).doc.newlyProcessed = false
    ∧ (removeDocument s).doc.isEmpty = true := by
  rw [removeDocument_eq]
  refine ⟨rfl, rfl, h, rfl, ?_⟩
  simp only [DocState.isEmpty, DocState.removeDocument, h, beq_self_eq_true, Bool.not_false,
    Bool.and_self]

/-- Witness for C8 (amended): removing the processed `a.pdf`. -/
theorem removeDocument_gives_empty_witness :
    processedPage.doc.isProcessing = false
    ∧ processedPage.doc.inProcessed = true
    ∧ (removeDocument processedPage).doc.uploadedFile = none
    ∧ (removeDocument processedPage).doc.fileProcessed = false
    ∧ (removeDocument processedPage).doc.isProcessing = false
    ∧ (removeDocument processedPage).doc.newlyProcessed = false
    ∧ (removeDocument processedPage).doc.isEmpty = true :=
  ⟨by decide, by decide, removeDocument_gives_empty processedPage (by decide)⟩

/-- C9 (counterexample): the processed page holds the welcome message, and after
`removeDocument` the message list of `Chat` still holds it: the list is not reset
to `[]`. -/
theorem removeDocument_keeps_messages_example :
    processedPage.messages = [welcomeMessage (some "a.pdf")]
    ∧ (removeDocument processedPage).messages = [welcomeMessage (some "a.pdf")]
    ∧ (removeDocument processedPage).messages ≠ [] :=
  ⟨rfl, rfl, fun h => List.cons_ne_nil (welcomeMessage (some "a.pdf")) [] h⟩

/-- C9 (amended): `removeDocument` disables send (`fileProcessed` is false, so
`Chat` shows the waiting placeholder and renders no message), and it leaves the
state of the `Chat` component, its message list included, unchanged. -/
theorem removeDocument_disables_chat (s : App) :
    chatEnabled (removeDocument s) = false
    ∧ (removeDocument s).doc.fileProcessed = false
    ∧ renderedMessages (removeDocument s) = []
    ∧ (removeDocument s).chat = s.chat
    ∧ (removeDocument s).messages = s.messages := by
  rw [removeDocument_eq]
  exact ⟨rfl, rfl, rfl, rfl, rfl⟩

/-! ## Replacement while a timer is pending -/

/-- C10 (defect in the code): `a.pdf` is uploaded at time 0 and `b.pdf` at time
1000, while the timer of `a.pdf` (due at 4500) is pending.  At time 4500, which
is 3500 ms after the upload of `b.pdf`, that timer fires: `b.pdf` is marked
processed and gets its welcome message although its own timer, due at 5500, is
still pending. -/
theorem stale_timer_marks_replacement_processed :
    secondUploadPage.now = 1000
    ∧ secondUploadPage.doc.uploadedFile = some "b.pdf"
    ∧ secondUploadPage.doc.inProcessing = true
    ∧ secondUploadPage.timers
        = [{ due := 4500, callback := TimerCallback.processing },
           { due := 5500, callback := TimerCallback.processing }]
    ∧ (elapse 2 3499 secondUploadPage).doc.inProcessing = true
    ∧ (elapse 2 3500 secondUploadPage).now = 4500
    ∧ (elapse 2 3500 secondUploadPage).doc.uploadedFile = some "b.pdf"
    ∧ (elapse 2 3500 secondUploadPage).doc.fileProcessed = true
    ∧ (elapse 2 3500 secondUploadPage).doc.isProcessing = false
    ∧ (elapse 2 3500 secondUploadPage).doc.inProcessing = false
    ∧ (elapse 2 3500 secondUploadPage).messages = [welcomeMessage (some "b.pdf")]
    ∧ (elapse 2 3500 secondUploadPage).timers
        = [{ due := 5500, callback := TimerCallback.processing }] :=
  ⟨rfl, rfl, rfl, rfl, rfl, rfl, rfl, rfl, rfl, rfl, rfl, rfl⟩

/-! ## The chat invariant of the provider state -/

/-- C11 (defect in the code): two runs of provider operations from the initial
state that end with the chat enabled although no processed document is present.
Replacing a processed document leaves `fileProcessed` true while `isProcessing` is
true (`handleFileUpload` never resets `fileProcessed`); removing the replacement
and letting its timer fire gives `fileProcessed` true with `uploadedFile` null. -/
theorem chat_enabled_while_processing :
    (runDocEvents [DocEvent.upload samplePdf, DocEvent.timerFires, DocEvent.upload secondPdf]
        homePage).doc.fileProcessed = true
    ∧ (runDocEvents [DocEvent.upload samplePdf, DocEvent.timerFires, DocEvent.upload secondPdf]
        homePage).doc.isProcessing = true
    ∧ (runDocEvents [DocEvent.upload samplePdf, DocEvent.timerFires, DocEvent.upload secondPdf,
          DocEvent.remove, DocEvent.timerFires] homePage).doc.fileProcessed = true
    ∧ (runDocEvents [DocEvent.upload samplePdf, DocEvent.timerFires, DocEvent.upload secondPdf,
          DocEvent.remove, DocEvent.timerFires] homePage).doc.uploadedFile = none := by
  decide

/-! ## Sending a message (Chat.js) -/

theorem trimChars_eq_nil_iff (cs : List Char) :
    trimChars cs = [] ↔ ∀ ch ∈ cs, isJsWhiteSpace ch = true := by
  unfold trimChars
  rw [List.reverse_eq_nil_iff, List.dropWhile_eq_nil_iff]
  constructor
  · intro h
    have h2 : cs.dropWhile isJsWhiteSpace = [] := by
      cases hd : cs.dropWhile isJsWhiteSpace with
      | nil => rfl
      | cons a l =>
        have ha : isJsWhiteSpace a = true := h a (by rw [hd]; simp)
        have hn := List.head_dropWhile_not isJsWhiteSpace cs (by rw [hd]; simp)
        simp only [hd, List.head_cons] at hn
        rw [ha] at hn
        exact absurd hn (by decide)
    exact List.dropWhile_eq_nil_iff.mp h2
  · intro h
    rw [List.dropWhile_eq_nil_iff.mpr h]
    intro x hx
    exact absurd hx (List.not_mem_nil x)

theorem jsTrim_eq_empty_iff (text : String) :
    jsTrim text = "" ↔ ∀ ch ∈ text.data, isJsWhiteSpace ch = true := by
  rw [← trimChars_eq_nil_iff]
  unfold jsTrim
  constructor
  · intro h
    exact congrArg String.data h
  · intro h
    rw [h]

theorem handleSendMessage_blank (s : App)
    (hb : ∀ c, s.chat = some c → jsTrim c.input = "") : handleSendMessage s = s := by
  unfold handleSendMessage
  cases hc : s.chat with
  | none => rfl
  | some c => exact if_pos (hb c hc)

theorem handleSendMessage_not_blank (s : App) (c : ChatState) (hc : s.chat = some c)
    (hn : jsTrim c.input ≠ "") :
    handleSendMessage s =
      { s with
          chat := some { c with messages := c.messages ++
                                  [{ role := Role.user, content := c.input }],
                                input := "", isLoading := true },
          timers := s.timers ++
            [{ due := s.now + 1200,
               callback := TimerCallback.reply s.doc.uploadedFile c.input }] } := by
  unfold handleSendMessage
  rw [hc]
  exact if_neg hn

theorem pressEnter_not_processed (s : App) (h : s.doc.fileProcessed = false) :
    pressEnter s = s := by
  unfold pressEnter
  rw [h]
  rfl

theorem clickSend_not_processed (s : App) (h : s.doc.fileProcessed = false) :
    clickSend s = s := by
  unfold clickSend
  cases hc : s.chat with
  | none => rfl
  | some c =>
    dsimp only
    rw [h]
    rfl

theorem pressEnter_blank (s : App)
    (hb : ∀ c, s.chat = some c → jsTrim c.input = "") : pressEnter s = s := by
  unfold pressEnter
  rw [handleSendMessage_blank s hb]
  exact ite_self s

theorem clickSend_blank (s : App)
    (hb : ∀ c, s.chat = some c → jsTrim c.input = "") : clickSend s = s := by
  unfold clickSend
  cases hc : s.chat with
  | none => rfl
  | some c =>
    dsimp only
    rw [handleSendMessage_blank s hb]
    exact ite_self s

/-- C12 (amended): `handleSendMessage` is a no-op when the input is empty or holds
only white space (`!input.trim()`): the page state is left as it is, no message is
appended, `input` and `isLoading` are unchanged and no reply timer is set.  It does
not test `fileProcessed`: with `fileProcessed` false it is the Enter key and the
Send button that do nothing, the input and the button not being rendered, while
`handleSendMessage` itself, run on an input that is not blank, appends the user
message, clears the input, sets `isLoading` and sets the reply timer. -/
theorem send_is_noop (s : App) (c : ChatState) (hc : s.chat = some c)
    (h : (∀ ch ∈ c.input.data, isJsWhiteSpace ch = true) ∨ s.doc.fileProcessed = false) :
    pressEnter s = s
    ∧ clickSend s = s
    ∧ (pressEnter s).messages = c.messages
    ∧ (clickSend s).messages = c.messages
    ∧ (pressEnter s).chat = some c
    ∧ (clickSend s).chat = some c
    ∧ (pressEnter s).timers = s.timers
    ∧ (clickSend s).timers = s.timers
    ∧ ((∀ ch ∈ c.input.data, isJsWhiteSpace ch = true) → handleSendMessage s = s)
    ∧ ((∃ ch ∈ c.input.data, isJsWhiteSpace ch = false) →
        handleSendMessage s =
          { s with
              chat := some { c with messages := c.messages ++
                                      [{ role := Role.user, content := c.input }],
                                    input := "", isLoading := true },
              timers := s.timers ++
                [{ due := s.now + 1200,
                   callback := TimerCallback.reply s.doc.uploadedFile c.input }] }) := by
  have hm : s.messages = c.messages := by
    unfold App.messages
    rw [hc]
  have hsend : (∃ ch ∈ c.input.data, isJsWhiteSpace ch = false) → jsTrim c.input ≠ "" := by
    intro hn ht
    obtain ⟨ch, hmem, hch⟩ := hn
    have hw := (jsTrim_eq_empty_iff c.input).mp ht ch hmem
    rw [hch] at hw
    exact absurd hw (by decide)
  have hblank : (∀ ch ∈ c.input.data, isJsWhiteSpace ch = true) →
      ∀ c', s.chat = some c' → jsTrim c'.input = "" := by
    intro hb c' hc'
    rw [hc] at hc'
    cases hc'
    exact (jsTrim_eq_empty_iff c.input).mpr hb
  have h1 : pressEnter s = s := by
    rcases h with hb | hp
    · exact pressEnter_blank s (hblank hb)
    · exact pressEnter_not_processed s hp
  have h2 : clickSend s = s := by
    rcases h with hb | hp
    · exact clickSend_blank s (hblank hb)
    · exact clickSend_not_processed s hp
  refine ⟨h1, h2, ?_, ?_, ?_, ?_, ?_, ?_, fun hb => handleSendMessage_blank s (hblank hb),
    fun hn => handleSendMessage_not_blank s c hc (hsend hn)⟩
  · rw [h1, hm]
  · rw [h2, hm]
  · rw [h1, hc]
  · rw [h2, hc]
  · rw [h1]
  · rw [h2]

/-- Witness for C12 (amended): `hello` is typed, then the document is removed; the
chat still holds the text, the document is not processed, and neither the Enter
key nor the Send button does anything. -/
theorem send_is_noop_witness :
    (removeDocument typedPage).doc.fileProcessed = false
    ∧ (removeDocument typedPage).chat
        = some { messages := [welcomeMessage (some "a.pdf")], input := "hello",
                 isLoading := false, streamingText := "", isStreaming := false }
    ∧ pressEnter (removeDocument typedPage) = removeDocument typedPage
    ∧ clickSend (removeDocument typedPage) = removeDocument typedPage :=
  have h := send_is_noop (removeDocument typedPage)
    { messages := [welcomeMessage (some "a.pdf")], input := "hello",
      isLoading := false, streamingText := "", isStreaming := false } rfl (Or.inr rfl)
  ⟨rfl, rfl, h.1, h.2.1⟩

/-- C13: with a processed document and an input that holds a character other
than white space, `handleSendMessage` appends exactly one message with role `user`
and the input text as it is, untrimmed, at the end of the message list, clears the
input, sets `isLoading`, and leaves `isStreaming` and the streaming text as they
are; it sets exactly one timer, the reply timer due 1200 ms later.  The Enter key
runs it, and so does the Send button when no reply is pending. -/
theorem handleSendMessage_appends_user_message (s : App) (c : ChatState)
    (hc : s.chat = some c) (hp : s.doc.fileProcessed = true)
    (hn : ∃ ch ∈ c.input.data, isJsWhiteSpace ch = false) :
    (∃ c', (handleSendMessage s).chat = some c'
        ∧ c'.messages = c.messages ++ [{ role := Role.user, content := c.input }]
        ∧ c'.input = ""
        ∧ c'.isLoading = true
        ∧ c'.isStreaming = c.isStreaming
        ∧ c'.streamingText = c.streamingText)
    ∧ (handleSendMessage s).messages
        = c.messages ++ [{ role := Role.user, content := c.input }]
    ∧ (handleSendMessage s).timers
        = s.timers ++ [{ due := s.now + 1200,
                         callback := TimerCallback.reply s.doc.uploadedFile c.input }]
    ∧ (handleSendMessage s).doc = s.doc
    ∧ pressEnter s = handleSendMessage s
    ∧ (c.isLoading = false → clickSend s = handleSendMessage s) := by
  have hne : jsTrim c.input ≠ "" := by
    intro h
    obtain ⟨ch, hmem, hch⟩ := hn
    have := (jsTrim_eq_empty_iff c.input).mp h ch hmem
    rw [hch] at this
    exact absurd this (by decide)
  rw [handleSendMessage_not_blank s c hc hne]
  refine ⟨⟨_, rfl, rfl, rfl, rfl, rfl, rfl⟩, rfl, rfl, rfl, ?_, ?_⟩
  · unfold pressEnter
    rw [hp, handleSendMessage_not_blank s c hc hne]
    rfl
  · intro hl
    unfold clickSend
    rw [hc]
    dsimp only
    have hd : sendButtonDisabled c = false := by
      unfold sendButtonDisabled
      rw [hl, Bool.or_false]
      exact beq_false_of_ne hne
    rw [hp, hd, handleSendMessage_not_blank s c hc hne]
    rfl

/-- Witness for C13: `hello` sent on the chat page with the processed `a.pdf`. -/
theorem handleSendMessage_appends_user_message_witness :
    typedPage.doc.fileProcessed = true
    ∧ (handleSendMessage typedPage).messages
        = [welcomeMessage (some "a.pdf"), { role := Role.user, content := "hello" }]
    ∧ (handleSendMessage typedPage).timers
        = [{ due := 5700, callback := TimerCallback.reply (some "a.pdf") "hello" }]
    ∧ pressEnter typedPage = handleSendMessage typedPage :=
  have h := handleSendMessage_appends_user_message typedPage
    { messages := [welcomeMessage (some "a.pdf")], input := "hello",
      isLoading := false, streamingText := "", isStreaming := false } rfl rfl
    ⟨'h', by decide, by decide⟩
  ⟨rfl, h.2.1, h.2.2.1, h.2.2.2.2.1⟩

/-! ## The message list only grows -/

theorem messages_of_chat (s : App) (c : ChatState) (h : s.chat = some c) :
    s.messages = c.messages := by
  unfold App.messages
  rw [h]

theorem messages_of_unmounted (s : App) (h : s.chat = none) : s.messages = [] := by
  unfold App.messages
  rw [h]

theorem handleSendMessage_messages (s : App) :
    s.messages <+: (handleSendMessage s).messages := by
  cases hc : s.chat with
  | none =>
    rw [messages_of_unmounted s hc]
    exact List.nil_prefix
  | some c =>
    by_cases hb : jsTrim c.input = ""
    · rw [handleSendMessage_blank s (fun c' hc' => by rw [hc] at hc'; cases hc'; exact hb)]
    · rw [handleSendMessage_not_blank s c hc hb, messages_of_chat s c hc]
      exact List.prefix_append _ _

theorem pressEnter_cases (s : App) : pressEnter s = s ∨ pressEnter s = handleSendMessage s := by
  unfold pressEnter
  cases s.doc.fileProcessed
  · exact Or.inl rfl
  · exact Or.inr rfl

theorem clickSend_cases (s : App) : clickSend s = s ∨ clickSend s = handleSendMessage s := by
  unfold clickSend
  cases s.chat with
  | none => exact Or.inl rfl
  | some c =>
    dsimp only
    cases (s.doc.fileProcessed && !sendButtonDisabled c)
    · exact Or.inl rfl
    · exact Or.inr rfl

theorem typeInput_messages (text : String) (s : App) :
    (typeInput text s).messages = s.messages := by
  obtain ⟨now, doc, err, chat, timers, cts⟩ := s
  unfold typeInput
  cases doc.fileProcessed
  · rfl
  · cases chat <;> rfl

theorem replyCallback_messages (u : Option String) (i : String) (s : App) :
    (replyCallback u i s).messages = s.messages := by
  obtain ⟨now, doc, err, chat, timers, cts⟩ := s
  cases chat <;> rfl

theorem tokenCallback_messages_not_last (cell index : Nat) (word : String) (n : Nat)
    (rt : String) (s : App) (h : index ≠ n - 1) :
    (tokenCallback cell index word n rt s).messages = s.messages := by
  obtain ⟨now, doc, err, chat, timers, cts⟩ := s
  unfold tokenCallback
  rw [if_neg h]
  cases chat <;> rfl

theorem tokenCallback_messages_last (cell index : Nat) (word : String) (n : Nat)
    (rt : String) (s : App) (c : ChatState) (hc : s.chat = some c) (h : index = n - 1) :
    (tokenCallback cell index word n rt s).messages
      = c.messages ++ [{ role := Role.assistant, content := rt }] := by
  obtain ⟨now, doc, err, chat, timers, cts⟩ := s
  unfold tokenCallback
  rw [if_pos h]
  cases hc
  rfl

theorem tokenCallback_messages (cell index : Nat) (word : String) (n : Nat)
    (rt : String) (s : App) :
    s.messages <+: (tokenCallback cell index word n rt s).messages := by
  by_cases h : index = n - 1
  · cases hc : s.chat with
    | none =>
      rw [messages_of_unmounted s hc]
      exact List.nil_prefix
    | some c =>
      rw [tokenCallback_messages_last cell index word n rt s c hc h, messages_of_chat s c hc]
      exact List.prefix_append _ _
  · rw [tokenCallback_messages_not_last cell index word n rt s h]

/-- C17: every chat transition other than the welcome reset keeps the message
list as a prefix of the new one.  A send (by `handleSendMessage`, the Enter key or
the Send button) and the callback of a word of a reply only append at the end;
typing, the start of a reply and a document removal leave the list as it is. -/
theorem messages_append_only (s : App) :
    s.messages <+: (handleSendMessage s).messages
    ∧ s.messages <+: (pressEnter s).messages
    ∧ s.messages <+: (clickSend s).messages
    ∧ (∀ text, s.messages <+: (typeInput text s).messages)
    ∧ (∀ u i, s.messages <+: (runCallback (TimerCallback.reply u i) s).messages)
    ∧ (∀ cell index word n rt,
        s.messages <+: (runCallback (TimerCallback.token cell index word n rt) s).messages)
    ∧ s.messages <+: (removeDocument s).messages := by
  refine ⟨handleSendMessage_messages s, ?_, ?_, ?_, ?_, ?_, ?_⟩
  · rcases pressEnter_cases s with h | h <;> rw [h]
    exact handleSendMessage_messages s
  · rcases clickSend_cases s with h | h <;> rw [h]
    exact handleSendMessage_messages s
  · intro text
    rw [typeInput_messages]
  · intro u i
    show s.messages <+: (replyCallback u i s).messages
    rw [replyCallback_messages]
  · intro cell index word n rt
    exact tokenCallback_messages cell index word n rt s
  · rw [removeDocument_eq]
    exact List.prefix_refl _

/-! ## One send and its reply -/

theorem nextTimer_tokenTimers (base cell n : Nat) (rt : String) (ws : List String) :
    ∀ (i : Nat) (w : String),
      nextTimer (tokenTimers base cell n rt i (w :: ws))
        = some { due := base + i * 40, callback := TimerCallback.token cell i w n rt } := by
  induction ws with
  | nil => intro i w; rfl
  | cons w' ws ih =>
    intro i w
    show (match nextTimer (tokenTimers base cell n rt (i + 1) (w' :: ws)) with
          | none => some _
          | some u => if u.due < _ then some u else some _) = _
    rw [ih (i + 1) w']
    exact if_neg (by show ¬ (base + (i + 1) * 40 < base + i * 40); omega)

theorem jsSplitSpace_ne_nil (text : String) : jsSplitSpace text ≠ [] :=
  List.cons_ne_nil _ _

theorem jsSplitSpace_length_pos (text : String) : 1 ≤ (jsSplitSpace text).length := by
  unfold jsSplitSpace
  rw [List.length_cons]
  omega

/-- The run of the timers of the words of one reply, from the word of index `i`
on: when the deadline is not before the last word, all of them fire, the reply is
appended and the chat is idle again. -/
theorem runTimers_tokens (deadline base cell n : Nat) (rt : String) :
    ∀ (ws : List String) (i fuel : Nat) (s : App) (c : ChatState),
      ws ≠ [] → i + ws.length = n → s.timers = tokenTimers base cell n rt i ws →
      s.chat = some c → ws.length ≤ fuel → base + (n - 1) * 40 ≤ deadline →
      (runTimers deadline fuel s).chat
          = some { c with messages := c.messages ++
                            [{ role := Role.assistant, content := rt }],
                          streamingText := "", isStreaming := false, isLoading := false }
        ∧ (runTimers deadline fuel s).timers = []
        ∧ (runTimers deadline fuel s).doc = s.doc
        ∧ (runTimers deadline fuel s).uploadError = s.uploadError := by
  intro ws
  induction ws with
  | nil => intro i fuel s c h; exact absurd rfl h
  | cons w ws ih =>
    intro i fuel s c _ hlen htimers hchat hfuel hdead
    obtain ⟨k, rfl⟩ : ∃ k, fuel = k + 1 := ⟨fuel - 1, by
      rw [List.length_cons] at hfuel; omega⟩
    rw [List.length_cons] at hlen hfuel
    have hnext := nextTimer_tokenTimers base cell n rt ws i w
    have hdue : base + i * 40 ≤ deadline := by
      have : i * 40 ≤ (n - 1) * 40 := Nat.mul_le_mul_right 40 (by omega)
      omega
    have hstep : runTimers deadline (k + 1) s
        = runTimers deadline k
            (tokenCallback cell i w n rt
              { s with now := max s.now (base + i * 40),
                       timers := tokenTimers base cell n rt (i + 1) ws }) := by
      show (match nextTimer s.timers with
            | none => s
            | some t => if t.due ≤ deadline then runTimers deadline k (fireNext s) else s) = _
      have hfire : fireNext s
          = tokenCallback cell i w n rt
              { s with now := max s.now (base + i * 40),
                       timers := tokenTimers base cell n rt (i + 1) ws } := by
        unfold fireNext
        rw [htimers, hnext]
        show runCallback _ { s with now := _, timers := List.erase (_ :: _) _ } = _
        rw [List.erase_cons_head]
        rfl
      rw [hfire, htimers, hnext]
      exact if_pos hdue
    rw [hstep]
    cases ws with
    | nil =>
      have hlast : i = n - 1 := by
        rw [List.length_nil] at hlen; omega
      have hres : tokenCallback cell i w n rt
            { s with now := max s.now (base + i * 40),
                     timers := tokenTimers base cell n rt (i + 1) [] }
          = { s with
                now := max s.now (base + i * 40),
                timers := [],
                currentTexts :=
                  s.currentTexts.set cell (appendWord (s.currentTexts.getD cell "") i w),
                chat := some { c with messages := c.messages ++
                                        [{ role := Role.assistant, content := rt }],
                                      streamingText := "", isStreaming := false,
                                      isLoading := false } } := by
        unfold tokenCallback
        rw [if_pos hlast]
        simp only [hchat, Option.map_some']
        rfl
      rw [hres, runTimers_no_timer deadline k _ rfl]
      exact ⟨rfl, rfl, rfl, rfl⟩
    | cons w' ws' =>
      have hnot : i ≠ n - 1 := by
        rw [List.length_cons] at hlen; omega
      have hres : tokenCallback cell i w n rt
            { s with now := max s.now (base + i * 40),
                     timers := tokenTimers base cell n rt (i + 1) (w' :: ws') }
          = { s with
                now := max s.now (base + i * 40),
                timers := tokenTimers base cell n rt (i + 1) (w' :: ws'),
                currentTexts :=
                  s.currentTexts.set cell (appendWord (s.currentTexts.getD cell "") i w),
                chat := some { c with streamingText :=
                                        appendWord (s.currentTexts.getD cell "") i w } } := by
        unfold tokenCallback
        rw [if_neg hnot]
        simp only [hchat, Option.map_some']
      rw [hres]
      exact ih (i + 1) k
        { s with
            now := max s.now (base + i * 40),
            timers := tokenTimers base cell n rt (i + 1) (w' :: ws'),
            currentTexts :=
              s.currentTexts.set cell (appendWord (s.currentTexts.getD cell "") i w),
            chat := some { c with streamingText :=
                                    appendWord (s.currentTexts.getD cell "") i w } }
        { c with streamingText := appendWord (s.currentTexts.getD cell "") i w }
        (List.cons_ne_nil _ _) (by omega) rfl rfl (by omega) hdead

theorem jsTrim_ne_empty_of_char (text : String)
    (hn : ∃ ch ∈ text.data, isJsWhiteSpace ch = false) : jsTrim text ≠ "" := by
  intro h
  obtain ⟨ch, hmem, hch⟩ := hn
  have := (jsTrim_eq_empty_iff text).mp h ch hmem
  rw [hch] at this
  exact absurd this (by decide)

/-- The state of the page after the reply timer of a send fired and all timers of
the words of the reply fired. -/
theorem runTimers_reply (deadline fuel : Nat) (s : App) (c : ChatState)
    (u : Option String) (i : String) (due : Nat)
    (htimers : s.timers = [{ due := due, callback := TimerCallback.reply u i }])
    (hchat : s.chat = some c) (hnow : s.now ≤ due)
    (hfuel : (jsSplitSpace (responseText u i)).length + 1 ≤ fuel)
    (hdead : due + ((jsSplitSpace (responseText u i)).length - 1) * 40 ≤ deadline) :
    (runTimers deadline fuel s).chat
        = some { c with messages := c.messages ++
                          [{ role := Role.assistant, content := responseText u i }],
                        streamingText := "", isStreaming := false, isLoading := false }
      ∧ (runTimers deadline fuel s).timers = []
      ∧ (runTimers deadline fuel s).doc = s.doc
      ∧ (runTimers deadline fuel s).uploadError = s.uploadError := by
  obtain ⟨k, rfl⟩ : ∃ k, fuel = k + 1 := ⟨fuel - 1, by omega⟩
  have hmax : max s.now due = due := Nat.max_eq_right hnow
  have hstep : runTimers deadline (k + 1) s
      = runTimers deadline k
          (replyCallback u i { s with now := due, timers := [] }) := by
    show (match nextTimer s.timers with
          | none => s
          | some t => if t.due ≤ deadline then runTimers deadline k (fireNext s) else s) = _
    rw [fireNext_single s _ htimers, htimers, nextTimer_single]
    dsimp only
    rw [hmax, if_pos (by omega)]
    rfl
  rw [hstep]
  have h := runTimers_tokens deadline due s.currentTexts.length
    (jsSplitSpace (responseText u i)).length (responseText u i)
    (jsSplitSpace (responseText u i)) 0 k
    (replyCallback u i { s with now := due, timers := [] })
    { c with isStreaming := true }
    (jsSplitSpace_ne_nil _) (by omega) (by unfold replyCallback; rfl)
    (by unfold replyCallback; simp only [hchat, Option.map_some']) (by omega) hdead
  exact h

/-- C14: with no reply pending (`isLoading` false), a processed document, a
non-blank input and no pending timer, one send followed by no other event gives at
once the earlier messages followed by the user message; once the reply timer and the timers of all
words of the response have fired (1200 ms plus 40 ms for each word after the
first), the message list is the earlier list followed by exactly the user message
and then the assistant message holding the full response text, and the chat is
idle again: streaming text empty, `isStreaming` and `isLoading` false, no timer
left. -/
theorem send_then_reply (s : App) (c : ChatState) (fuel ms : Nat)
    (hc : s.chat = some c) (hp : s.doc.fileProcessed = true)
    (hload : c.isLoading = false)
    (hn : ∃ ch ∈ c.input.data, isJsWhiteSpace ch = false)
    (htimers : s.timers = [])
    (hfuel : (jsSplitSpace (responseText s.doc.uploadedFile c.input)).length + 1 ≤ fuel)
    (hms : 1200 + ((jsSplitSpace (responseText s.doc.uploadedFile c.input)).length - 1) * 40
            ≤ ms) :
    clickSend s = pressEnter s
    ∧ (pressEnter s).messages = c.messages ++ [{ role := Role.user, content := c.input }]
    ∧ (elapse fuel ms (pressEnter s)).messages
        = c.messages ++ [{ role := Role.user, content := c.input },
                         { role := Role.assistant,
                           content := responseText s.doc.uploadedFile c.input }]
    ∧ (elapse fuel ms (pressEnter s)).chat
        = some { messages := c.messages ++
                   [{ role := Role.user, content := c.input },
                    { role := Role.assistant,
                      content := responseText s.doc.uploadedFile c.input }],
                 input := "", isLoading := false, streamingText := "",
                 isStreaming := false }
    ∧ (elapse fuel ms (pressEnter s)).timers = [] := by
  have hne := jsTrim_ne_empty_of_char c.input hn
  have hsend := handleSendMessage_not_blank s c hc hne
  have hpress : pressEnter s = handleSendMessage s := by
    unfold pressEnter
    rw [hp]
    rfl
  have hclick : clickSend s = handleSendMessage s := by
    unfold clickSend
    rw [hc]
    dsimp only
    have hd : sendButtonDisabled c = false := by
      unfold sendButtonDisabled
      rw [hload, Bool.or_false]
      exact beq_false_of_ne hne
    rw [hp, hd]
    rfl
  rw [hclick, hpress, hsend, htimers, List.nil_append]
  have hrun := runTimers_reply (s.now + ms) fuel
    { s with
        chat := some { c with messages := c.messages ++
                                [{ role := Role.user, content := c.input }],
                              input := "", isLoading := true },
        timers := [{ due := s.now + 1200,
                     callback := TimerCallback.reply s.doc.uploadedFile c.input }] }
    { c with messages := c.messages ++ [{ role := Role.user, content := c.input }],
             input := "", isLoading := true }
    s.doc.uploadedFile c.input (s.now + 1200) rfl rfl (Nat.le_add_right _ _) hfuel
    (by omega)
  obtain ⟨hchat, htm, _, _⟩ := hrun
  have hfinal : (elapse fuel ms
        { s with
            chat := some { c with messages := c.messages ++
                                    [{ role := Role.user, content := c.input }],
                                  input := "", isLoading := true },
            timers := [{ due := s.now + 1200,
                         callback := TimerCallback.reply s.doc.uploadedFile c.input }] }).chat
      = some { messages := c.messages ++
                 [{ role := Role.user, content := c.input },
                  { role := Role.assistant,
                    content := responseText s.doc.uploadedFile c.input }],
               input := "", isLoading := false, streamingText := "",
               isStreaming := false } := by
    rw [elapse_chat]
    dsimp only
    rw [hchat]
    dsimp only
    rw [List.append_assoc]
    rfl
  refine ⟨rfl, ?_, ?_, hfinal, ?_⟩
  · rfl
  · rw [messages_of_chat _ _ hfinal]
  · rw [elapse_timers]
    exact htm

/-- Witness for C14: `hello` sent on the chat page with the processed `a.pdf`,
then 2760 ms pass (the response has 40 words). -/
theorem send_then_reply_witness :
    typedPage.doc.fileProcessed = true
    ∧ typedPage.timers = []
    ∧ (jsSplitSpace (responseText (some "a.pdf") "hello")).length = 40
    ∧ (elapse 41 2760 (pressEnter typedPage)).messages
        = [welcomeMessage (some "a.pdf"), { role := Role.user, content := "hello" },
           { role := Role.assistant, content := responseText (some "a.pdf") "hello" }]
    ∧ (elapse 41 2760 (pressEnter typedPage)).timers = [] :=
  have hlen : (jsSplitSpace (responseText (some "a.pdf") "hello")).length = 40 := by decide
  have h := send_then_reply typedPage
    { messages := [welcomeMessage (some "a.pdf")], input := "hello",
      isLoading := false, streamingText := "", isStreaming := false } 41 2760
    rfl rfl rfl ⟨'h', by decide, by decide⟩ rfl
    (by show (jsSplitSpace (responseText (some "a.pdf") "hello")).length + 1 ≤ 41
        rw [hlen])
    (by show 1200 + ((jsSplitSpace (responseText (some "a.pdf") "hello")).length - 1) * 40
          ≤ 2760
        rw [hlen])
  ⟨rfl, rfl, hlen, h.2.2.1, h.2.2.2.2⟩

/-! ## Splitting and joining the response (Chat.js lines 61-67) -/

theorem joinSpace_append_singleton (w : String) :
    ∀ l : List String, l ≠ [] → joinSpace (l ++ [w]) = joinSpace l ++ (" " ++ w) := by
  intro l
  induction l with
  | nil => intro h; exact absurd rfl h
  | cons v l ih =>
    intro _
    cases l with
    | nil =>
      show v ++ " " ++ joinSpace [w] = joinSpace [v] ++ (" " ++ w)
      exact String.append_assoc _ _ _
    | cons v' l' =>
      show v ++ " " ++ joinSpace (v' :: l' ++ [w])
        = (v ++ " " ++ joinSpace (v' :: l')) ++ (" " ++ w)
      rw [ih (List.cons_ne_nil _ _), String.append_assoc (v ++ " ")]

theorem joinSpace_append_left (l₂ : List String) :
    ∀ l₁ : List String, l₁ ≠ [] →
      (joinSpace l₁).data <+: (joinSpace (l₁ ++ l₂)).data := by
  induction l₂ with
  | nil =>
    intro l₁ _
    rw [List.append_nil]
  | cons w l₂ ih =>
    intro l₁ h
    have h1 : l₁ ++ w :: l₂ = (l₁ ++ [w]) ++ l₂ := by
      rw [List.append_assoc]
      rfl
    rw [h1]
    refine List.IsPrefix.trans ?_ (ih (l₁ ++ [w]) (by
      intro h0
      exact List.cons_ne_nil w [] (List.append_eq_nil.mp h0).2))
    rw [joinSpace_append_singleton w l₁ h, String.data_append]
    exact List.prefix_append _ _

theorem currentTextAfter_eq_joinSpace (words : List String) :
    ∀ k, k < words.length → currentTextAfter words k = joinSpace (words.take (k + 1)) := by
  intro k
  induction k with
  | zero =>
    intro h
    cases words with
    | nil => exact absurd h (by decide)
    | cons w ws =>
      show appendWord "" 0 w = joinSpace [w]
      unfold appendWord
      rfl
  | succ k ih =>
    intro h
    have hk : k < words.length := by omega
    have hget : words[k + 1]? = some words[k + 1] := List.getElem?_eq_getElem h
    have hD : words.getD (k + 1) "" = words[k + 1] := List.getD_eq_getElem _ _ h
    show appendWord (currentTextAfter words k) (k + 1) (words.getD (k + 1) "") = _
    rw [ih hk, hD, List.take_succ (n := k + 1), hget]
    have hne : words.take (k + 1) ≠ [] := by
      cases words with
      | nil => exact absurd h (by simp)
      | cons w ws => exact List.cons_ne_nil _ _
    show _ = joinSpace (List.take (k + 1) words ++ [words[k + 1]])
    rw [joinSpace_append_singleton _ _ hne]
    unfold appendWord
    rw [if_pos (by omega)]

theorem joinSpace_cons_char (c : Char) (h : List Char) (rest : List String) :
    joinSpace (String.mk (c :: h) :: rest) = String.mk [c] ++ joinSpace (String.mk h :: rest) := by
  cases rest with
  | nil => rfl
  | cons w ws =>
    show String.mk (c :: h) ++ " " ++ joinSpace (w :: ws)
      = String.mk [c] ++ (String.mk h ++ " " ++ joinSpace (w :: ws))
    rw [String.append_assoc, String.append_assoc (String.mk h)]
    rfl

theorem joinSpace_splitSpaceChars (cs : List Char) :
    joinSpace (String.mk (splitSpaceChars cs).1 :: (splitSpaceChars cs).2.map String.mk)
      = String.mk cs := by
  induction cs with
  | nil => rfl
  | cons c cs ih =>
    by_cases hc : c = ' '
    · have hs : splitSpaceChars (c :: cs)
          = ([], (splitSpaceChars cs).1 :: (splitSpaceChars cs).2) := by
        show (if c = ' ' then _ else _) = _
        rw [if_pos hc]
      rw [hs]
      show String.mk [] ++ " " ++ joinSpace (String.mk (splitSpaceChars cs).1
          :: (splitSpaceChars cs).2.map String.mk) = _
      rw [ih, hc]
      rfl
    · have hs : splitSpaceChars (c :: cs)
          = (c :: (splitSpaceChars cs).1, (splitSpaceChars cs).2) := by
        show (if c = ' ' then _ else _) = _
        rw [if_neg hc]
      rw [hs]
      show joinSpace (String.mk (c :: (splitSpaceChars cs).1)
          :: (splitSpaceChars cs).2.map String.mk) = _
      rw [joinSpace_cons_char, ih]
      rfl

theorem joinSpace_jsSplitSpace (text : String) : joinSpace (jsSplitSpace text) = text :=
  joinSpace_splitSpaceChars text.data

theorem tokenCallback_currentText (cell index : Nat) (word : String) (n : Nat) (rt : String)
    (s : App) (h : cell < s.currentTexts.length) :
    (tokenCallback cell index word n rt s).currentTexts.getD cell ""
      = appendWord (s.currentTexts.getD cell "") index word := by
  unfold tokenCallback
  split <;> simp [List.getD_eq_getElem?_getD, h]

/-- C15: splitting the response text at single spaces gives at least one word;
after the callbacks of the words of index 0 to `k` ran, `currentText` is these
words joined by single spaces and is a prefix of the response text; after the last
word it is the response text itself, so joining with a space undoes the split.
Each callback extends the `currentText` of its reply by `appendWord`, and the
message appended by the last one holds the response text. -/
theorem streamed_text_is_joined_words (text : String) :
    1 ≤ (jsSplitSpace text).length
    ∧ (∀ k, k < (jsSplitSpace text).length →
        currentTextAfter (jsSplitSpace text) k = joinSpace ((jsSplitSpace text).take (k + 1))
        ∧ (currentTextAfter (jsSplitSpace text) k).data <+: text.data)
    ∧ currentTextAfter (jsSplitSpace text) ((jsSplitSpace text).length - 1) = text
    ∧ joinSpace (jsSplitSpace text) = text
    ∧ (∀ (s : App) (cell index : Nat) (word : String) (n : Nat),
        cell < s.currentTexts.length →
        (tokenCallback cell index word n text s).currentTexts.getD cell ""
          = appendWord (s.currentTexts.getD cell "") index word)
    ∧ (∀ (s : App) (c : ChatState) (cell index : Nat) (word : String) (n : Nat),
        s.chat = some c → index = n - 1 →
        (tokenCallback cell index word n text s).messages
          = c.messages ++ [{ role := Role.assistant, content := text }]) := by
  have hpos := jsSplitSpace_length_pos text
  have hjoin := joinSpace_jsSplitSpace text
  refine ⟨hpos, ?_, ?_, hjoin, ?_, ?_⟩
  · intro k hk
    have he := currentTextAfter_eq_joinSpace (jsSplitSpace text) k hk
    refine ⟨he, ?_⟩
    rw [he]
    have hp := joinSpace_append_left ((jsSplitSpace text).drop (k + 1))
      ((jsSplitSpace text).take (k + 1)) (by
        intro h0
        have := congrArg List.length h0
        rw [List.length_take, List.length_nil] at this
        omega)
    rw [List.take_append_drop, hjoin] at hp
    exact hp
  · rw [currentTextAfter_eq_joinSpace _ _ (by omega)]
    have hl : (jsSplitSpace text).length - 1 + 1 = (jsSplitSpace text).length := by omega
    rw [hl, List.take_length, hjoin]
  · intro s cell index word n h
    exact tokenCallback_currentText cell index word n text s h
  · intro s c cell index word n hc h
    exact tokenCallback_messages_last cell index word n text s c hc h

/-! ## Two sends in flight -/

set_option maxRecDepth 100000 in
/-- C16 (defect in the code): the Enter key runs `handleSendMessage` also while a
reply is pending.  `a b c d` is sent at time 4500 and `x` at time 4600; the reply
to `x` has three words fewer and completes at 7360, the reply to `a b c d` at
7380: in the message list the reply to the second send comes before the reply to
the first one. -/
theorem second_reply_before_first :
    twoSendsPage.messages
        = [welcomeMessage (some "a.pdf"),
           { role := Role.user, content := "a b c d" },
           { role := Role.user, content := "x" }]
    ∧ (elapse 100 2770 twoSendsPage).messages
        = [welcomeMessage (some "a.pdf"),
           { role := Role.user, content := "a b c d" },
           { role := Role.user, content := "x" },
           { role := Role.assistant, content := responseText (some "a.pdf") "x" }]
    ∧ (elapse 100 3000 twoSendsPage).messages
        = [welcomeMessage (some "a.pdf"),
           { role := Role.user, content := "a b c d" },
           { role := Role.user, content := "x" },
           { role := Role.assistant, content := responseText (some "a.pdf") "x" },
           { role := Role.assistant, content := responseText (some "a.pdf") "a b c d" }]
    ∧ (elapse 100 3000 twoSendsPage).timers = [] :=
  ⟨rfl, rfl, rfl, rfl⟩

set_option maxRecDepth 100000 in
/-- C18 (defect in the code): the Enter key runs `handleSendMessage` also while a
reply is pending.  `a b c d e` is sent at time 4500 and `x` at time 4600.  At time
7360 the reply to `x` completes and resets `isLoading` and `isStreaming`; at time
7380 the callback of a word of the first reply sets the streaming text: the chat
then has a non-empty streaming text with `isStreaming` and `isLoading` false, which
is none of the three phases. -/
theorem streaming_text_while_not_streaming :
    (elapse 100 1150 twoSendsLongPage).chatInPhase = true
    ∧ (elapse 100 2770 twoSendsLongPage).chatInPhase = true
    ∧ (elapse 100 2780 twoSendsLongPage).chat.map ChatState.isLoading = some false
    ∧ (elapse 100 2780 twoSendsLongPage).chat.map ChatState.isStreaming = some false
    ∧ (elapse 100 2780 twoSendsLongPage).chat.map ChatState.streamingText
        = some (currentTextAfter (jsSplitSpace (responseText (some "a.pdf") "a b c d e")) 42)
    ∧ currentTextAfter (jsSplitSpace (responseText (some "a.pdf") "a b c d e")) 42 ≠ ""
    ∧ (elapse 100 2780 twoSendsLongPage).chatInPhase = false :=
  ⟨rfl, rfl, rfl, rfl, rfl, by decide, rfl⟩

/-! ## The context hook (FileContext.js) -/

/-- C19: `useFileContext` fails, with the message
`useFileContext must be used within a FileProvider`, exactly when there is no
enclosing `FileProvider`; inside a provider it returns the value of the provider,
whose eight fields are the five state cells and the three operations. -/
theorem useFileContext_spec (insideProvider : Bool) (s : App) :
    (useFileContext insideProvider s
        = Except.error "useFileContext must be used within a FileProvider"
      ↔ insideProvider = false)
    ∧ ((∃ message, useFileContext insideProvider s = Except.error message)
      ↔ insideProvider = false)
    ∧ useFileContext false s
        = Except.error "useFileContext must be used within a FileProvider"
    ∧ useFileContext true s = Except.ok (FileProvider.value s)
    ∧ (FileProvider.value s).uploadedFile = s.doc.uploadedFile
    ∧ (FileProvider.value s).fileProcessed = s.doc.fileProcessed
    ∧ (FileProvider.value s).isProcessing = s.doc.isProcessing
    ∧ (FileProvider.value s).uploaderKey = s.doc.uploaderKey
    ∧ (FileProvider.value s).newlyProcessed = s.doc.newlyProcessed
    ∧ (FileProvider.value s).handleFileUpload = handleFileUpload
    ∧ (FileProvider.value s).removeDocument = removeDocument
    ∧ (FileProvider.value s).clearNewlyProcessedFlag = clearNewlyProcessedFlag := by
  refine ⟨?_, ?_, rfl, rfl, rfl, rfl, rfl, rfl, rfl, rfl, rfl, rfl⟩
  · cases insideProvider
    · exact ⟨fun _ => rfl, fun _ => rfl⟩
    · constructor
      · intro h
        cases h
      · intro h
        cases h
  · cases insideProvider
    · exact ⟨fun _ => rfl, fun _ => ⟨_, rfl⟩⟩
    · constructor
      · intro h
        obtain ⟨m, hm⟩ := h
        cases hm
      · intro h
        cases h

/-! ## The active document of the document list -/

theorem handleFileChange_activeListed (files : List PickedFile) (addedAt : String)
    (s : DocListState) (h : s.activeListed) :
    (handleFileChange files addedAt s).activeListed := by
  unfold handleFileChange
  cases files with
  | nil => exact h
  | cons f fs =>
    rw [if_neg (by rw [List.length_cons]; omega)]
    show _ ∨ _
    dsimp only [List.map_cons]
    by_cases ht : truthy s.activeDocId = true
    · rcases h with h | ⟨d, hd, hid⟩
      · rw [h] at ht
        exact absurd ht (by decide)
      · refine Or.inr ⟨d, List.mem_append_left _ hd, ?_⟩
        rw [ht]
        exact hid
    · refine Or.inr ⟨uploadedDoc addedAt f,
        List.mem_append_right _ (List.mem_cons_self _ _), ?_⟩
      rw [Bool.not_eq_true] at ht
      rw [ht]
      rfl

theorem removeDoc_activeListed (id : String) (s : DocListState) (h : s.activeListed) :
    (removeDoc id s).activeListed := by
  unfold removeDoc
  show _ ∨ _
  dsimp only
  by_cases ha : s.activeDocId = some id
  · rw [if_pos ha]
    exact Or.inl rfl
  · rw [if_neg ha]
    rcases h with h | ⟨d, hd, hid⟩
    · exact Or.inl h
    · refine Or.inr ⟨d, ?_, hid⟩
      rw [List.mem_filter]
      refine ⟨hd, ?_⟩
      rw [bne_iff_ne]
      intro hdi
      rw [hid, hdi] at ha
      exact ha rfl

theorem DocListEvent.apply_activeListed (e : DocListEvent) (s : DocListState)
    (h : s.activeListed) : (e.apply s).activeListed := by
  cases e with
  | fileChange files addedAt => exact handleFileChange_activeListed files addedAt s h
  | remove id => exact removeDoc_activeListed id s h
  | selectRow index =>
    show DocListState.activeListed (match s.docs[index]? with
      | some d => setActiveDocId (some d.id) s
      | none => s)
    cases hd : s.docs[index]? with
    | none => exact h
    | some d => exact Or.inr ⟨d, List.getElem?_mem hd, rfl⟩

theorem runDocListEvents_activeListed (events : List DocListEvent) :
    ∀ s : DocListState, s.activeListed → (runDocListEvents events s).activeListed := by
  induction events with
  | nil => intro s h; exact h
  | cons e es ih =>
    intro s h
    exact ih (e.apply s) (e.apply_activeListed s h)

theorem activeDoc_of_none (s : DocListState) (h : s.activeDocId = none) :
    activeDoc s = none := by
  unfold activeDoc
  rw [h, List.find?_eq_none]
  intro d _
  simp

theorem activeDoc_of_listed (s : DocListState) (id : String) (h : s.activeDocId = some id)
    (hl : s.activeListed) :
    ∃ d, activeDoc s = some d ∧ d ∈ s.docs ∧ d.id = id := by
  rcases hl with hn | ⟨d, hd, hid⟩
  · rw [h] at hn
    cases hn
  · cases hf : activeDoc s with
    | none =>
      unfold activeDoc at hf
      rw [List.find?_eq_none] at hf
      have := hf d hd
      rw [hid] at this
      simp at this
    | some d' =>
      refine ⟨d', rfl, ?_, ?_⟩
      · unfold activeDoc at hf
        exact List.mem_of_find?_eq_some hf
      · unfold activeDoc at hf
        have hp := List.find?_some hf
        rw [h] at hp
        simpa using hp

/-- C20: in every state reached from the initial state of the document-list front
end by changes of the file input, calls of `removeDoc` and clicks on rows of the
list, `activeDocId` is null or the id of a listed document; `activeDoc` is null
when `activeDocId` is null, and otherwise it is a listed document with that id. -/
theorem active_document_is_listed (events : List DocListEvent) :
    ((runDocListEvents events DocListState.initial).activeDocId = none
      ∨ ∃ d ∈ (runDocListEvents events DocListState.initial).docs,
          (runDocListEvents events DocListState.initial).activeDocId = some d.id)
    ∧ ((runDocListEvents events DocListState.initial).activeDocId = none →
        activeDoc (runDocListEvents events DocListState.initial) = none)
    ∧ (∀ id, (runDocListEvents events DocListState.initial).activeDocId = some id →
        ∃ d, activeDoc (runDocListEvents events DocListState.initial) = some d
          ∧ d ∈ (runDocListEvents events DocListState.initial).docs ∧ d.id = id) := by
  have h := runDocListEvents_activeListed events DocListState.initial (Or.inl rfl)
  exact ⟨h, activeDoc_of_none _, fun id hid => activeDoc_of_listed _ id hid h⟩

/-! ## The welcome effect (Chat.js lines 30-35) -/

/-- The welcome effect on the three kinds of `uploadedFile`: for a mounted chat,
when `newlyProcessed` is set and `uploadedFile` is a
non-empty name (the test `uploadedFile` of the guard holds), the welcome effect
replaces the message list, whatever it held, by exactly one assistant message
whose content names that file, and clears `newlyProcessed`, leaving the other
cells of the provider as they are; when `uploadedFile` is null, and also when it is
the empty string, the effect changes nothing, neither the message list nor the
flag. -/
theorem welcomeEffect_spec (s : App) (c : ChatState) (hc : s.chat = some c) :
    (∀ name, s.doc.newlyProcessed = true → s.doc.uploadedFile = some name → name ≠ "" →
        (welcomeEffect s).messages = [welcomeMessage (some name)]
        ∧ (welcomeMessage (some name)).role = Role.assistant
        ∧ (welcomeMessage (some name)).content = welcomeHead ++ name ++ welcomeTail
        ∧ (welcomeEffect s).doc.newlyProcessed = false
        ∧ (welcomeEffect s).doc.uploadedFile = some name
        ∧ (welcomeEffect s).doc.fileProcessed = s.doc.fileProcessed
        ∧ (welcomeEffect s).doc.isProcessing = s.doc.isProcessing
        ∧ (welcomeEffect s).doc.uploaderKey = s.doc.uploaderKey)
    ∧ (s.doc.uploadedFile = none →
        welcomeEffect s = s
        ∧ (welcomeEffect s).messages = c.messages
        ∧ (welcomeEffect s).doc.newlyProcessed = s.doc.newlyProcessed)
    ∧ (s.doc.uploadedFile = some "" →
        welcomeEffect s = s
        ∧ (welcomeEffect s).messages = c.messages
        ∧ (welcomeEffect s).doc.newlyProcessed = s.doc.newlyProcessed) := by
  have hm : s.messages = c.messages := messages_of_chat s c hc
  have hfalsy : truthy s.doc.uploadedFile = false → welcomeEffect s = s := by
    intro ht
    unfold welcomeEffect
    rw [hc]
    dsimp only
    rw [ht, Bool.and_false]
    rfl
  refine ⟨?_, ?_, ?_⟩
  · intro name hn hu hne
    rw [welcomeEffect_fires s c name hc hn hu hne]
    exact ⟨rfl, rfl, rfl, rfl, hu, rfl, rfl, rfl⟩
  · intro hu
    have h := hfalsy (by rw [hu]; rfl)
    rw [h]
    exact ⟨rfl, hm, rfl⟩
  · intro hu
    have h := hfalsy (by rw [hu]; rfl)
    rw [h]
    exact ⟨rfl, hm, rfl⟩

/-- The welcome effect on a page whose chat holds two messages when `a.pdf` has
just been processed. -/
theorem welcomeEffect_spec_witness :
    signalledPage.doc.newlyProcessed = true
    ∧ signalledPage.doc.uploadedFile = some "a.pdf"
    ∧ signalledPage.messages
        = [{ role := Role.user, content := "hi" },
           { role := Role.assistant, content := "old reply" }]
    ∧ (welcomeEffect signalledPage).messages = [welcomeMessage (some "a.pdf")]
    ∧ (welcomeEffect signalledPage).doc.newlyProcessed = false :=
  have h := (welcomeEffect_spec signalledPage
    { ChatState.initial with
        messages := [{ role := Role.user, content := "hi" },
                     { role := Role.assistant, content := "old reply" }] } rfl).1
    "a.pdf" rfl rfl (by decide)
  ⟨rfl, rfl, rfl, h.1, h.2.2.2.1⟩

/-! ## A send while a reply is pending -/

/-- C24 (defect in the code): `hello` is sent at time 4500 and `x` is typed 100 ms
later.  While the reply to `hello` is pending (`isLoading` true) the Send button is
disabled, so a click does nothing; the Enter key still
runs `handleSendMessage`: a second user message is appended and a second reply
timer is set, so two replies are in flight. -/
theorem enter_sends_while_loading :
    pendingPage.chat.map ChatState.isLoading = some true
    ∧ pendingPage.messages
        = [welcomeMessage (some "a.pdf"), { role := Role.user, content := "hello" }]
    ∧ pendingPage.timers
        = [{ due := 5700, callback := TimerCallback.reply (some "a.pdf") "hello" }]
    ∧ clickSend pendingPage = pendingPage
    ∧ (pressEnter pendingPage).messages
        = [welcomeMessage (some "a.pdf"), { role := Role.user, content := "hello" },
           { role := Role.user, content := "x" }]
    ∧ (pressEnter pendingPage).timers
        = [{ due := 5700, callback := TimerCallback.reply (some "a.pdf") "hello" },
           { due := 5800, callback := TimerCallback.reply (some "a.pdf") "x" }] :=
  ⟨rfl, rfl, rfl, rfl, rfl, rfl⟩

/-! ## The key of the file input -/

theorem welcomeEffect_uploaderKey (s : App) :
    (welcomeEffect s).doc.uploaderKey = s.doc.uploaderKey := by
  rcases welcomeEffect_doc s with h | h
  · rw [h]
  · rw [h]
    rfl

theorem tokenCallback_doc (cell index : Nat) (word : String) (n : Nat) (rt : String)
    (s : App) : (tokenCallback cell index word n rt s).doc = s.doc := by
  unfold tokenCallback
  split <;> rfl

theorem runCallback_uploaderKey (cb : TimerCallback) (s : App) :
    (runCallback cb s).doc.uploaderKey = s.doc.uploaderKey := by
  cases cb with
  | processing =>
    rw [runCallback_processing, welcomeEffect_uploaderKey]
    rfl
  | reply u i => rfl
  | token cell index word n rt =>
    show (tokenCallback cell index word n rt s).doc.uploaderKey = _
    rw [tokenCallback_doc]

theorem fireNext_uploaderKey (s : App) :
    (fireNext s).doc.uploaderKey = s.doc.uploaderKey := by
  unfold fireNext
  cases nextTimer s.timers with
  | none => rfl
  | some t =>
    dsimp only
    rw [runCallback_uploaderKey]

theorem DocEvent.apply_uploaderKey (e : DocEvent) (s : App) :
    (e.apply s).doc.uploaderKey
      = s.doc.uploaderKey + (if e = DocEvent.remove then 1 else 0) := by
  cases e with
  | upload f =>
    show (handleFileUpload f s).doc.uploaderKey = _
    rw [handleFileUpload_eq]
    rfl
  | timerFires => exact fireNext_uploaderKey s
  | remove =>
    show (removeDocument s).doc.uploaderKey = _
    rw [removeDocument_eq]
    rfl
  | clearFlag =>
    show (clearNewlyProcessedFlag s).doc.uploaderKey = _
    unfold clearNewlyProcessedFlag
    rw [welcomeEffect_uploaderKey]
    rfl

theorem runDocEvents_uploaderKey (events : List DocEvent) :
    ∀ s : App, (runDocEvents events s).doc.uploaderKey
      = s.doc.uploaderKey + events.count DocEvent.remove := by
  induction events with
  | nil => intro s; rfl
  | cons e es ih =>
    intro s
    show (runDocEvents es (e.apply s)).doc.uploaderKey = _
    rw [ih, DocEvent.apply_uploaderKey, List.count_cons]
    by_cases h : e = DocEvent.remove
    · rw [if_pos h, h]
      simp only [beq_self_eq_true, if_true]
      omega
    · rw [if_neg h]
      have hb : (e == DocEvent.remove) = false := beq_false_of_ne h
      rw [hb]
      simp only [Bool.false_eq_true, if_false]
      omega

/-- C25: `uploaderKey` starts at 0; `removeDocument` adds exactly 1 to it;
`handleFileUpload`, the firing of a timer (the processing timer in particular) and
`clearNewlyProcessedFlag` leave it as it is; so after every sequence of these
operations from the initial state it equals the number of `removeDocument` calls
made. -/
theorem uploaderKey_counts_removals (events : List DocEvent) (chat : Option ChatState)
    (s : App) (f : File) :
    (App.initial chat).doc.uploaderKey = 0
    ∧ (removeDocument s).doc.uploaderKey = s.doc.uploaderKey + 1
    ∧ (handleFileUpload f s).doc.uploaderKey = s.doc.uploaderKey
    ∧ (runCallback TimerCallback.processing s).doc.uploaderKey = s.doc.uploaderKey
    ∧ (fireNext s).doc.uploaderKey = s.doc.uploaderKey
    ∧ (clearNewlyProcessedFlag s).doc.uploaderKey = s.doc.uploaderKey
    ∧ (runDocEvents events (App.initial chat)).doc.uploaderKey
        = events.count DocEvent.remove := by
  refine ⟨rfl, ?_, ?_, runCallback_uploaderKey _ s, fireNext_uploaderKey s, ?_, ?_⟩
  · exact DocEvent.apply_uploaderKey DocEvent.remove s
  · exact DocEvent.apply_uploaderKey (DocEvent.upload f) s
  · exact DocEvent.apply_uploaderKey DocEvent.clearFlag s
  · rw [runDocEvents_uploaderKey]
    show 0 + _ = _
    omega

/-! ## Adding and removing documents of the list -/

theorem uploadedId_has_dash (f : PickedFile) : '-' ∈ (uploadedId f).data := by
  unfold uploadedId
  rw [String.data_append, String.data_append]
  have h : '-' ∈ "-".data := List.mem_singleton.mpr rfl
  exact List.mem_append_left _ (List.mem_append_right _ h)

theorem uploadedId_ne_empty (f : PickedFile) : uploadedId f ≠ "" := by
  intro h
  have hd := uploadedId_has_dash f
  rw [h] at hd
  exact absurd hd (List.not_mem_nil _)

theorem handleFileChange_nil (addedAt : String) (s : DocListState) :
    handleFileChange [] addedAt s = s := rfl

theorem handleFileChange_cons (f : PickedFile) (fs : List PickedFile) (addedAt : String)
    (s : DocListState) :
    handleFileChange (f :: fs) addedAt s
      = { docs := s.docs ++ (f :: fs).map (uploadedDoc addedAt),
          activeDocId :=
            if !truthy s.activeDocId then some (uploadedId f) else s.activeDocId } := by
  unfold handleFileChange
  rw [if_neg (by rw [List.length_cons]; omega)]
  rfl

/-- C26: `handleFileChange` with a non-empty selection of `k` files gives the
earlier list of documents, unchanged and in the same order, followed by exactly
`k` new documents in the order of the selection, the one of index `i` having the
name of the file of index `i` and the kind `uploaded`; with an empty selection the
state, hence the list and the active document, is unchanged. -/
theorem handleFileChange_docs (files : List PickedFile) (addedAt : String)
    (s : DocListState) :
    (files ≠ [] →
      (handleFileChange files addedAt s).docs = s.docs ++ files.map (uploadedDoc addedAt)
      ∧ (handleFileChange files addedAt s).docs.length = s.docs.length + files.length
      ∧ s.docs <+: (handleFileChange files addedAt s).docs
      ∧ (handleFileChange files addedAt s).docs.take s.docs.length = s.docs
      ∧ (∀ i f, files[i]? = some f →
          ∃ d, (handleFileChange files addedAt s).docs[s.docs.length + i]? = some d
            ∧ d.name = f.name ∧ d.kind = DocKind.uploaded ∧ d.id = uploadedId f))
    ∧ handleFileChange [] addedAt s = s
    ∧ (handleFileChange [] addedAt s).docs = s.docs
    ∧ activeDoc (handleFileChange [] addedAt s) = activeDoc s := by
  refine ⟨?_, rfl, rfl, rfl⟩
  intro hne
  cases files with
  | nil => exact absurd rfl hne
  | cons f fs =>
    rw [handleFileChange_cons]
    refine ⟨rfl, ?_, List.prefix_append _ _, ?_, ?_⟩
    · show (s.docs ++ (f :: fs).map (uploadedDoc addedAt)).length = _
      rw [List.length_append, List.length_map]
    · show (s.docs ++ (f :: fs).map (uploadedDoc addedAt)).take s.docs.length = _
      rw [List.take_left']
      rfl
    · intro i g hg
      refine ⟨uploadedDoc addedAt g, ?_, rfl, rfl, rfl⟩
      show (s.docs ++ (f :: fs).map (uploadedDoc addedAt))[s.docs.length + i]? = _
      rw [List.getElem?_append_right (by omega)]
      have hi : s.docs.length + i - s.docs.length = i := by omega
      rw [hi, List.getElem?_map, hg]
      rfl

theorem initial_ids_ne_empty : ∀ d ∈ DocListState.initial.docs, d.id ≠ "" := by
  decide

theorem initial_ids_no_dash : ∀ d ∈ DocListState.initial.docs, '-' ∉ d.id.data := by
  decide

theorem initial_kinds : ∀ d ∈ DocListState.initial.docs, d.kind = DocKind.builtin := by
  decide

theorem DocListEvent.apply_ids (e : DocListEvent) (s : DocListState)
    (h : ∀ d ∈ s.docs, d.id ≠ "") : ∀ d ∈ (e.apply s).docs, d.id ≠ "" := by
  cases e with
  | fileChange files addedAt =>
    cases files with
    | nil => exact h
    | cons f fs =>
      show ∀ d ∈ (handleFileChange (f :: fs) addedAt s).docs, d.id ≠ ""
      rw [handleFileChange_cons]
      intro d hd
      rcases List.mem_append.mp hd with hd | hd
      · exact h d hd
      · obtain ⟨g, _, rfl⟩ := List.mem_map.mp hd
        exact uploadedId_ne_empty g
  | remove id =>
    intro d hd
    exact h d (List.mem_filter.mp hd).1
  | selectRow index =>
    show ∀ d ∈ (match s.docs[index]? with
      | some d => setActiveDocId (some d.id) s
      | none => s).docs, d.id ≠ ""
    cases s.docs[index]? with
    | none => exact h
    | some d => exact h

theorem runDocListEvents_ids (events : List DocListEvent) :
    ∀ s : DocListState, (∀ d ∈ s.docs, d.id ≠ "") →
      ∀ d ∈ (runDocListEvents events s).docs, d.id ≠ "" := by
  induction events with
  | nil => intro s h; exact h
  | cons e es ih =>
    intro s h
    exact ih (e.apply s) (e.apply_ids s h)

theorem reachable_active_truthy (events : List DocListEvent) (id : String)
    (h : (runDocListEvents events DocListState.initial).activeDocId = some id) :
    truthy (runDocListEvents events DocListState.initial).activeDocId = true := by
  have hl := runDocListEvents_activeListed events DocListState.initial (Or.inl rfl)
  have hi := runDocListEvents_ids events DocListState.initial initial_ids_ne_empty
  rcases hl with hn | ⟨d, hd, hid⟩
  · rw [h] at hn
    cases hn
  · rw [hid]
    show (d.id != "") = true
    rw [bne_iff_ne]
    exact hi d hd

/-- C27: in every state reached in the document-list front end, `handleFileChange`
with a non-empty selection makes the first newly added document the active one
when no document was active (`activeDocId` null), and leaves `activeDocId` as it is
when a document was active. -/
theorem handleFileChange_activates_first (events : List DocListEvent)
    (f : PickedFile) (fs : List PickedFile) (addedAt : String) :
    ((runDocListEvents events DocListState.initial).activeDocId = none →
      (handleFileChange (f :: fs) addedAt
        (runDocListEvents events DocListState.initial)).activeDocId
        = some (uploadedDoc addedAt f).id)
    ∧ (∀ id, (runDocListEvents events DocListState.initial).activeDocId = some id →
        (handleFileChange (f :: fs) addedAt
          (runDocListEvents events DocListState.initial)).activeDocId = some id)
    ∧ (handleFileChange (f :: fs) addedAt
        (runDocListEvents events DocListState.initial)).docs[
          (runDocListEvents events DocListState.initial).docs.length]?
        = some (uploadedDoc addedAt f) := by
  rw [handleFileChange_cons]
  refine ⟨?_, ?_, ?_⟩
  · intro h
    show (if !truthy _ then _ else _) = _
    rw [h]
    rfl
  · intro id h
    show (if !truthy _ then _ else _) = _
    rw [reachable_active_truthy events id h]
    exact h
  · show (_ ++ (f :: fs).map (uploadedDoc addedAt))[_]? = _
    rw [List.getElem?_append_right (Nat.le_refl _), Nat.sub_self, List.map_cons,
      List.getElem?_cons_zero]

/-- C28: `removeDoc id` keeps exactly the documents whose id differs from `id`,
in their earlier relative order, sets `activeDocId` to null when `id` was the
active id and leaves it as it is otherwise; in every state reached in the
document-list front end, removing an id that no listed document has changes
nothing. -/
theorem removeDoc_spec (events : List DocListEvent) (id : String) (s : DocListState) :
    (removeDoc id s).docs = s.docs.filter (fun d => d.id != id)
    ∧ (∀ d, d ∈ (removeDoc id s).docs ↔ d ∈ s.docs ∧ d.id ≠ id)
    ∧ List.Sublist (removeDoc id s).docs s.docs
    ∧ (s.activeDocId = some id → (removeDoc id s).activeDocId = none)
    ∧ (s.activeDocId ≠ some id → (removeDoc id s).activeDocId = s.activeDocId)
    ∧ ((removeDoc id s).activeDocId = none ↔ (s.activeDocId = some id ∨ s.activeDocId = none))
    ∧ ((∀ d ∈ (runDocListEvents events DocListState.initial).docs, d.id ≠ id) →
        removeDoc id (runDocListEvents events DocListState.initial)
          = runDocListEvents events DocListState.initial) := by
  have hpos : s.activeDocId = some id → (removeDoc id s).activeDocId = none :=
    fun h => if_pos h
  have hneg : s.activeDocId ≠ some id → (removeDoc id s).activeDocId = s.activeDocId :=
    fun h => if_neg h
  refine ⟨rfl, ?_, List.filter_sublist _, hpos, hneg, ?_, ?_⟩
  · intro d
    show d ∈ s.docs.filter (fun d => d.id != id) ↔ _
    rw [List.mem_filter, bne_iff_ne]
  · by_cases h : s.activeDocId = some id
    · rw [hpos h]
      exact ⟨fun _ => Or.inl h, fun _ => rfl⟩
    · rw [hneg h]
      exact ⟨fun hn => Or.inr hn, fun ho => ho.resolve_left h⟩
  · intro hall
    have hl := runDocListEvents_activeListed events DocListState.initial (Or.inl rfl)
    have hact : (runDocListEvents events DocListState.initial).activeDocId ≠ some id := by
      intro ha
      rcases hl with hn | ⟨d, hd, hid⟩
      · rw [ha] at hn
        cases hn
      · rw [ha] at hid
        exact hall d hd (Option.some.inj hid).symm
    have hdocs : (runDocListEvents events DocListState.initial).docs.filter
        (fun d => d.id != id) = (runDocListEvents events DocListState.initial).docs := by
      rw [List.filter_eq_self]
      intro d hd
      rw [bne_iff_ne]
      exact hall d hd
    unfold removeDoc
    rw [hdocs, if_neg hact]

/-! ## The built-in documents stay listed -/

theorem removeDoc_uploaded_keeps_builtin (id : String) (rest : List Doc)
    (hid : '-' ∈ id.data) :
    (DocListState.initial.docs ++ rest).filter (fun d => d.id != id)
      = DocListState.initial.docs ++ rest.filter (fun d => d.id != id) := by
  rw [List.filter_append]
  congr 1
  rw [List.filter_eq_self]
  intro d hd
  rw [bne_iff_ne]
  intro h
  have := initial_ids_no_dash d hd
  rw [h] at this
  exact this hid

theorem DocListClick.apply_keeps_builtin (e : DocListClick) (s : DocListState)
    (h : ∃ rest, s.docs = DocListState.initial.docs ++ rest
      ∧ ∀ d ∈ rest, '-' ∈ d.id.data) :
    ∃ rest, (e.apply s).docs = DocListState.initial.docs ++ rest
      ∧ ∀ d ∈ rest, '-' ∈ d.id.data := by
  obtain ⟨rest, hdocs, hrest⟩ := h
  cases e with
  | fileChange files addedAt =>
    cases files with
    | nil => exact ⟨rest, hdocs, hrest⟩
    | cons f fs =>
      refine ⟨rest ++ (f :: fs).map (uploadedDoc addedAt), ?_, ?_⟩
      · show (handleFileChange (f :: fs) addedAt s).docs = _
        rw [handleFileChange_cons]
        show s.docs ++ _ = _
        rw [hdocs, List.append_assoc]
      · intro d hd
        rcases List.mem_append.mp hd with hd | hd
        · exact hrest d hd
        · obtain ⟨g, _, rfl⟩ := List.mem_map.mp hd
          exact uploadedId_has_dash g
  | selectRow index =>
    refine ⟨rest, ?_, hrest⟩
    show (match s.docs[index]? with
      | some d => setActiveDocId (some d.id) s
      | none => s).docs = _
    cases s.docs[index]? with
    | none => exact hdocs
    | some d => exact hdocs
  | clickRemove index =>
    show ∃ rest, (match s.docs[index]? with
      | some d => if d.kind = DocKind.uploaded then removeDoc d.id s else s
      | none => s).docs = _ ∧ _
    cases hd : s.docs[index]? with
    | none => exact ⟨rest, hdocs, hrest⟩
    | some d =>
      dsimp only
      by_cases hk : d.kind = DocKind.uploaded
      · rw [if_pos hk]
        have hmem : d ∈ DocListState.initial.docs ++ rest := by
          rw [← hdocs]
          exact List.getElem?_mem hd
        have hdash : '-' ∈ d.id.data := by
          rcases List.mem_append.mp hmem with hm | hm
          · have := initial_kinds d hm
            rw [hk] at this
            cases this
          · exact hrest d hm
        refine ⟨rest.filter (fun x => x.id != d.id), ?_, ?_⟩
        · show s.docs.filter (fun x => x.id != d.id) = _
          rw [hdocs, removeDoc_uploaded_keeps_builtin d.id rest hdash]
        · intro x hx
          exact hrest x (List.mem_filter.mp hx).1
      · rw [if_neg hk]
        exact ⟨rest, hdocs, hrest⟩

theorem runDocListClicks_keeps_builtin (events : List DocListClick) :
    ∀ s : DocListState,
      (∃ rest, s.docs = DocListState.initial.docs ++ rest
        ∧ ∀ d ∈ rest, '-' ∈ d.id.data) →
      ∃ rest, (runDocListClicks events s).docs = DocListState.initial.docs ++ rest
        ∧ ∀ d ∈ rest, '-' ∈ d.id.data := by
  induction events with
  | nil => intro s h; exact h
  | cons e es ih =>
    intro s h
    exact ih (e.apply s) (e.apply_keeps_builtin s h)

/-- C29: after every sequence of additions of files, clicks on rows and clicks on
X buttons (rendered only for documents of kind `uploaded`), the list of documents
begins with the seven built-in documents in their original order: the id of every
uploaded document holds a `-`, no built-in id does, so the filter of `removeDoc`
for the id of an uploaded document keeps every built-in document. -/
theorem builtin_documents_stay (events : List DocListClick) :
    DocListState.initial.docs.length = 7
    ∧ DocListState.initial.docs
        <+: (runDocListClicks events DocListState.initial).docs
    ∧ (runDocListClicks events DocListState.initial).docs.take 7
        = DocListState.initial.docs
    ∧ (∀ f : PickedFile, '-' ∈ (uploadedId f).data)
    ∧ (∀ d ∈ DocListState.initial.docs, '-' ∉ d.id.data)
    ∧ (∀ d ∈ (runDocListClicks events DocListState.initial).docs,
        d.kind = DocKind.uploaded → '-' ∈ d.id.data) := by
  obtain ⟨rest, hdocs, hrest⟩ := runDocListClicks_keeps_builtin events
    DocListState.initial
    ⟨[], (List.append_nil _).symm, fun d hd => absurd hd (List.not_mem_nil d)⟩
  refine ⟨rfl, ?_, ?_, uploadedId_has_dash, initial_ids_no_dash, ?_⟩
  · rw [hdocs]
    exact List.prefix_append _ _
  · rw [hdocs]
    exact List.take_left' rfl
  · intro d hd hk
    rw [hdocs] at hd
    rcases List.mem_append.mp hd with hm | hm
    · have := initial_kinds d hm
      rw [hk] at this
      cases this
    · exact hrest d hm

/-! ## The drag counter (Sidebar.js lines 60-93) -/

theorem runDragEvents_append_singleton (events : List DragEvent) (e : DragEvent)
    (p : DragState × App) :
    runDragEvents (events ++ [e]) p = e.apply (runDragEvents events p) := by
  unfold runDragEvents
  rw [List.foldl_append]
  rfl

theorem sinceLastDrop_append_singleton (events : List DragEvent) (e : DragEvent) :
    sinceLastDrop (events ++ [e])
      = if e.isDrop then [] else sinceLastDrop events ++ [e] := by
  unfold sinceLastDrop
  rw [List.reverse_append, List.reverse_singleton, List.singleton_append,
    List.takeWhile_cons]
  cases e.isDrop
  · simp only [Bool.not_false, if_true, List.reverse_cons, Bool.false_eq_true, if_false]
  · simp only [Bool.not_true, Bool.false_eq_true, if_false, List.reverse_nil, if_true]

/-- The drag counter is the number of `dragenter` events minus the number of
`dragleave` events since the last `drop`. -/
theorem dragCounter_eq (s : App) (events : List DragEvent) :
    (runDragEvents events (DragState.initial, s)).1.dragCounter
      = ((sinceLastDrop events).countP DragEvent.isEnter : Int)
        - ((sinceLastDrop events).countP DragEvent.isLeave : Int) := by
  induction events using List.reverseRecOn with
  | nil => rfl
  | append_singleton es e ih =>
    rw [runDragEvents_append_singleton, sinceLastDrop_append_singleton]
    cases e with
    | dragenter hasItems =>
      show (runDragEvents es (DragState.initial, s)).1.dragCounter + 1 = _
      rw [ih]
      simp only [DragEvent.isDrop, Bool.false_eq_true, if_false, List.countP_append,
        List.countP_cons, List.countP_nil, DragEvent.isEnter, DragEvent.isLeave, if_true]
      push_cast
      omega
    | dragleave =>
      show (runDragEvents es (DragState.initial, s)).1.dragCounter - 1 = _
      rw [ih]
      simp only [DragEvent.isDrop, Bool.false_eq_true, if_false, List.countP_append,
        List.countP_cons, List.countP_nil, DragEvent.isEnter, DragEvent.isLeave, if_true]
      push_cast
      omega
    | drop files => rfl

theorem drag_invariant (s : App) (events : List DragEvent) :
    (∀ p, p <+: events →
      (sinceLastDrop p).countP DragEvent.isLeave
        ≤ (sinceLastDrop p).countP DragEvent.isEnter) →
    0 ≤ (runDragEvents events (DragState.initial, s)).1.dragCounter
    ∧ ((runDragEvents events (DragState.initial, s)).1.isDragging = true →
        0 < (runDragEvents events (DragState.initial, s)).1.dragCounter) := by
  induction events using List.reverseRecOn with
  | nil =>
    intro _
    exact ⟨Int.le_refl 0, fun h => by cases h⟩
  | append_singleton es e ih =>
    intro h
    have hprev := ih (fun p hp => h p (hp.trans (List.prefix_append es [e])))
    have hcount := dragCounter_eq s (es ++ [e])
    have hle := h (es ++ [e]) (List.prefix_refl _)
    have hnonneg : 0 ≤ (runDragEvents (es ++ [e]) (DragState.initial, s)).1.dragCounter := by
      rw [hcount]
      omega
    refine ⟨hnonneg, ?_⟩
    rw [runDragEvents_append_singleton] at hnonneg ⊢
    cases e with
    | dragenter hasItems =>
      intro _
      show 0 < (runDragEvents es (DragState.initial, s)).1.dragCounter + 1
      omega
    | dragleave =>
      intro hdrag
      have hc : 0 ≤ (runDragEvents es (DragState.initial, s)).1.dragCounter - 1 := hnonneg
      show 0 < (runDragEvents es (DragState.initial, s)).1.dragCounter - 1
      by_cases hz : (runDragEvents es (DragState.initial, s)).1.dragCounter - 1 = 0
      · have hf : (handleDragLeave (runDragEvents es (DragState.initial, s)).1).isDragging
            = false := if_pos hz
        have hd : (handleDragLeave (runDragEvents es (DragState.initial, s)).1).isDragging
            = true := hdrag
        rw [hf] at hd
        cases hd
      · omega
    | drop files =>
      intro hdrag
      cases hdrag

/-- C30: for every sequence of `dragenter`, `dragleave` and `drop` events in
which, at every moment, the `dragleave` events since the last `drop` do not
outnumber the `dragenter` events since the last `drop`, the drag counter is not
negative, and `isDragging` true implies that the counter is positive; after a
`dragleave` that brings the counter to 0, and after every `drop`, `isDragging` is
false and the counter is 0. -/
theorem drag_counter_invariant (s : App) (events : List DragEvent)
    (h : leavesWithinEnters events = true) :
    0 ≤ (runDragEvents events (DragState.initial, s)).1.dragCounter
    ∧ ((runDragEvents events (DragState.initial, s)).1.isDragging = true →
        0 < (runDragEvents events (DragState.initial, s)).1.dragCounter)
    ∧ (∀ d : DragState, (handleDragLeave d).dragCounter = 0 →
        (handleDragLeave d).isDragging = false)
    ∧ (∀ (files : List File) (p : DragState × App),
        (handleDrop files p).1.isDragging = false
        ∧ (handleDrop files p).1.dragCounter = 0) := by
  have hp : ∀ p, p <+: events →
      (sinceLastDrop p).countP DragEvent.isLeave
        ≤ (sinceLastDrop p).countP DragEvent.isEnter := by
    intro p hpre
    have hall := List.all_eq_true.mp h p ((List.mem_inits p events).mpr hpre)
    exact of_decide_eq_true hall
  obtain ⟨h1, h2⟩ := drag_invariant s events hp
  refine ⟨h1, h2, ?_, fun _ _ => ⟨rfl, rfl⟩⟩
  intro d hd
  exact if_pos hd

/-- Witness for C30: a drag with a nested enter and leave, a drop of `a.pdf`, and
the start of a new drag. -/
theorem drag_counter_invariant_witness :
    leavesWithinEnters sampleDrag = true
    ∧ (runDragEvents sampleDrag (DragState.initial, homePage)).1
        = { isDragging := true, dragCounter := 1 }
    ∧ 0 ≤ (runDragEvents sampleDrag (DragState.initial, homePage)).1.dragCounter
    ∧ ((runDragEvents sampleDrag (DragState.initial, homePage)).1.isDragging = true →
        0 < (runDragEvents sampleDrag (DragState.initial, homePage)).1.dragCounter) :=
  have h := drag_counter_invariant homePage sampleDrag (by decide)
  ⟨by decide, by decide, h.1, h.2.1⟩

/-! ## The times at which the words of a reply are revealed -/

theorem appendWord_currentTextBefore (words : List String) (i : Nat) :
    appendWord (currentTextBefore words i) i (words.getD i "") = currentTextAfter words i := by
  cases i <;> rfl

theorem getD_set_self (l : List String) (cell : Nat) (x : String) (h : cell < l.length) :
    (l.set cell x).getD cell "" = x := by
  rw [List.getD_eq_getElem?_getD, List.getElem?_set_self h]
  rfl

theorem tokenTimers_getElem? (base cell n : Nat) (rt : String) :
    ∀ (ws : List String) (start i : Nat) (w : String), ws[i]? = some w →
      (tokenTimers base cell n rt start ws)[i]?
        = some { due := base + (start + i) * 40,
                 callback := TimerCallback.token cell (start + i) w n rt } := by
  intro ws
  induction ws with
  | nil => intro start i w h; cases h
  | cons v ws ih =>
    intro start i w h
    have hcons : tokenTimers base cell n rt start (v :: ws)
        = { due := base + start * 40, callback := TimerCallback.token cell start v n rt }
          :: tokenTimers base cell n rt (start + 1) ws := rfl
    rw [hcons]
    cases i with
    | zero =>
      have hv : v = w := by
        rw [List.getElem?_cons_zero] at h
        exact Option.some.inj h
      rw [List.getElem?_cons_zero, hv]
      rfl
    | succ k =>
      rw [List.getElem?_cons_succ] at h
      rw [List.getElem?_cons_succ, ih (start + 1) k w h]
      have he : start + 1 + k = start + (k + 1) := by omega
      rw [he]

theorem runTimers_head_not_due (deadline fuel : Nat) (s : App) (t : Timer)
    (hn : nextTimer s.timers = some t) (hd : deadline < t.due) :
    runTimers deadline fuel s = s := by
  cases fuel with
  | zero => rfl
  | succ k =>
    unfold runTimers
    rw [hn]
    exact if_neg (by omega)

/-- The run of the timers of the words of index `i` to `i + m` of one reply, none
of them the last word, when the deadline falls between the word of index `i + m`
and the next one: the streaming text is the text accumulated up to that word. -/
theorem runTimers_tokens_partial (deadline base cell : Nat) (rt : String)
    (words : List String) :
    ∀ (m i fuel : Nat) (s : App) (c : ChatState),
      i + m + 1 < words.length →
      s.timers = tokenTimers base cell words.length rt i (words.drop i) →
      s.chat = some c → cell < s.currentTexts.length →
      s.currentTexts.getD cell "" = currentTextBefore words i →
      m + 1 ≤ fuel → base + (i + m) * 40 ≤ deadline → deadline < base + (i + m + 1) * 40 →
      (runTimers deadline fuel s).chat
          = some { c with streamingText := currentTextAfter words (i + m) }
        ∧ (runTimers deadline fuel s).timers
          = tokenTimers base cell words.length rt (i + m + 1) (words.drop (i + m + 1))
        ∧ (runTimers deadline fuel s).doc = s.doc := by
  intro m
  induction m with
  | zero =>
    intro i fuel s c hlen htimers hchat hcell hcur hfuel hlo hhi
    obtain ⟨k, rfl⟩ : ∃ k, fuel = k + 1 := ⟨fuel - 1, by omega⟩
    have hi : i < words.length := by omega
    have hdrop : words.drop i = words[i] :: words.drop (i + 1) :=
      List.drop_eq_getElem_cons hi
    have hD : words.getD i "" = words[i] := List.getD_eq_getElem _ _ hi
    rw [hdrop] at htimers
    have hnext := nextTimer_tokenTimers base cell words.length rt (words.drop (i + 1)) i
      words[i]
    have hnot : i ≠ words.length - 1 := by omega
    have hstep : runTimers deadline (k + 1) s
        = runTimers deadline k
            { s with
                now := max s.now (base + i * 40),
                timers := tokenTimers base cell words.length rt (i + 1) (words.drop (i + 1)),
                currentTexts := s.currentTexts.set cell (currentTextAfter words i),
                chat := some { c with streamingText := currentTextAfter words i } } := by
      show (match nextTimer s.timers with
            | none => s
            | some t => if t.due ≤ deadline then runTimers deadline k (fireNext s) else s) = _
      have hfire : fireNext s
          = { s with
                now := max s.now (base + i * 40),
                timers := tokenTimers base cell words.length rt (i + 1) (words.drop (i + 1)),
                currentTexts := s.currentTexts.set cell (currentTextAfter words i),
                chat := some { c with streamingText := currentTextAfter words i } } := by
        unfold fireNext
        rw [htimers, hnext]
        show runCallback _ { s with now := _, timers := List.erase (_ :: _) _ } = _
        rw [List.erase_cons_head]
        show tokenCallback cell i words[i] words.length rt _ = _
        unfold tokenCallback
        rw [if_neg hnot]
        simp only [hchat, Option.map_some', hcur]
        rw [← hD, appendWord_currentTextBefore]
      rw [hfire, htimers, hnext]
      exact if_pos (by simpa using hlo)
    rw [hstep]
    have hi1 : i + 1 < words.length := by omega
    have hdrop1 : words.drop (i + 1) = words[i + 1] :: words.drop (i + 1 + 1) :=
      List.drop_eq_getElem_cons hi1
    have hstop := runTimers_head_not_due deadline k
      { s with
          now := max s.now (base + i * 40),
          timers := tokenTimers base cell words.length rt (i + 1) (words.drop (i + 1)),
          currentTexts := s.currentTexts.set cell (currentTextAfter words i),
          chat := some { c with streamingText := currentTextAfter words i } }
      { due := base + (i + 1) * 40,
        callback := TimerCallback.token cell (i + 1) words[i + 1] words.length rt }
      (by
        show nextTimer (tokenTimers base cell words.length rt (i + 1) (words.drop (i + 1))) = _
        rw [hdrop1]
        exact nextTimer_tokenTimers base cell words.length rt _ (i + 1) words[i + 1])
      (by simpa using hhi)
    rw [hstop]
    exact ⟨rfl, rfl, rfl⟩
  | succ m ih =>
    intro i fuel s c hlen htimers hchat hcell hcur hfuel hlo hhi
    obtain ⟨k, rfl⟩ : ∃ k, fuel = k + 1 := ⟨fuel - 1, by omega⟩
    have hi : i < words.length := by omega
    have hdrop : words.drop i = words[i] :: words.drop (i + 1) :=
      List.drop_eq_getElem_cons hi
    have hD : words.getD i "" = words[i] := List.getD_eq_getElem _ _ hi
    rw [hdrop] at htimers
    have hnext := nextTimer_tokenTimers base cell words.length rt (words.drop (i + 1)) i
      words[i]
    have hnot : i ≠ words.length - 1 := by omega
    have hdue : base + i * 40 ≤ deadline := by
      have : i * 40 ≤ (i + (m + 1)) * 40 := Nat.mul_le_mul_right 40 (by omega)
      omega
    have hstep : runTimers deadline (k + 1) s
        = runTimers deadline k
            { s with
                now := max s.now (base + i * 40),
                timers := tokenTimers base cell words.length rt (i + 1) (words.drop (i + 1)),
                currentTexts := s.currentTexts.set cell (currentTextAfter words i),
                chat := some { c with streamingText := currentTextAfter words i } } := by
      show (match nextTimer s.timers with
            | none => s
            | some t => if t.due ≤ deadline then runTimers deadline k (fireNext s) else s) = _
      have hfire : fireNext s
          = { s with
                now := max s.now (base + i * 40),
                timers := tokenTimers base cell words.length rt (i + 1) (words.drop (i + 1)),
                currentTexts := s.currentTexts.set cell (currentTextAfter words i),
                chat := some { c with streamingText := currentTextAfter words i } } := by
        unfold fireNext
        rw [htimers, hnext]
        show runCallback _ { s with now := _, timers := List.erase (_ :: _) _ } = _
        rw [List.erase_cons_head]
        show tokenCallback cell i words[i] words.length rt _ = _
        unfold tokenCallback
        rw [if_neg hnot]
        simp only [hchat, Option.map_some', hcur]
        rw [← hD, appendWord_currentTextBefore]
      rw [hfire, htimers, hnext]
      exact if_pos hdue
    rw [hstep]
    have h := ih (i + 1) k
      { s with
          now := max s.now (base + i * 40),
          timers := tokenTimers base cell words.length rt (i + 1) (words.drop (i + 1)),
          currentTexts := s.currentTexts.set cell (currentTextAfter words i),
          chat := some { c with streamingText := currentTextAfter words i } }
      { c with streamingText := currentTextAfter words i }
      (by omega) rfl rfl
      (by show cell < (s.currentTexts.set cell _).length
          rw [List.length_set]
          exact hcell)
      (by show (s.currentTexts.set cell _).getD cell "" = _
          rw [getD_set_self _ _ _ hcell]
          rfl)
      (by omega)
      (by have he : i + 1 + m = i + (m + 1) := by omega
          rw [he]
          exact hlo)
      (by have he : i + 1 + m + 1 = i + (m + 1) + 1 := by omega
          rw [he]
          exact hhi)
    have he : i + 1 + m = i + (m + 1) := by omega
    rw [he] at h
    exact h

theorem runTimers_fire_reply (deadline k : Nat) (s : App) (u : Option String) (i : String)
    (due : Nat) (htimers : s.timers = [{ due := due, callback := TimerCallback.reply u i }])
    (hnow : s.now ≤ due) (hd : due ≤ deadline) :
    runTimers deadline (k + 1) s
      = runTimers deadline k (replyCallback u i { s with now := due, timers := [] }) := by
  have hmax : max s.now due = due := Nat.max_eq_right hnow
  show (match nextTimer s.timers with
        | none => s
        | some t => if t.due ≤ deadline then runTimers deadline k (fireNext s) else s) = _
  rw [fireNext_single s _ htimers, htimers, nextTimer_single]
  dsimp only
  rw [hmax, if_pos hd]
  rfl

theorem getD_append_fresh (l : List String) : (l ++ [""]).getD l.length "" = "" := by
  rw [List.getD_eq_getElem?_getD, List.getElem?_append_right (Nat.le_refl _), Nat.sub_self]
  rfl

/-- The state of the chat between the word of index `i` and the next word of a
reply, the reply timer being the only pending timer. -/
theorem runTimers_reply_partial (deadline fuel : Nat) (s : App) (c : ChatState)
    (u : Option String) (input : String) (due i : Nat)
    (htimers : s.timers = [{ due := due, callback := TimerCallback.reply u input }])
    (hchat : s.chat = some c) (hnow : s.now ≤ due)
    (hi : i + 1 < (jsSplitSpace (responseText u input)).length)
    (hfuel : i + 2 ≤ fuel)
    (hlo : due + i * 40 ≤ deadline) (hhi : deadline < due + (i + 1) * 40) :
    (runTimers deadline fuel s).chat
        = some { c with isStreaming := true,
                        streamingText :=
                          currentTextAfter (jsSplitSpace (responseText u input)) i }
      ∧ (runTimers deadline fuel s).timers
        = tokenTimers due s.currentTexts.length (jsSplitSpace (responseText u input)).length
            (responseText u input) (i + 1)
            ((jsSplitSpace (responseText u input)).drop (i + 1)) := by
  obtain ⟨k, rfl⟩ : ∃ k, fuel = k + 1 := ⟨fuel - 1, by omega⟩
  rw [runTimers_fire_reply deadline k s u input due htimers hnow (by omega)]
  have h := runTimers_tokens_partial deadline due s.currentTexts.length
    (responseText u input) (jsSplitSpace (responseText u input)) i 0 k
    (replyCallback u input { s with now := due, timers := [] })
    { c with isStreaming := true }
    (by omega) (by unfold replyCallback; rfl)
    (by unfold replyCallback; simp only [hchat, Option.map_some'])
    (by show s.currentTexts.length < (s.currentTexts ++ [""]).length
        rw [List.length_append, List.length_singleton]
        omega)
    (by show (s.currentTexts ++ [""]).getD s.currentTexts.length "" = _
        rw [getD_append_fresh]
        rfl)
    (by omega) (by omega) (by omega)
  rw [Nat.zero_add] at h
  exact ⟨h.1, h.2.1⟩

/-- C22: a non-blank text is sent at time `t` on a page with a processed document
and no pending timer; `n` is the number of words of the response.  The timer of
the word of index `i` is due `40 * i` ms after the reply timer fires, that is at
`t + 1200 + 40 * i`.  Before `t + 1200` the streaming text is unchanged and nothing
is revealed; from `t + 1200 + 40 * i` until the next word, for a word that is not
the last, the streaming text is exactly the words of index 0 to `i` accumulated in
index order; the assistant message is absent at every time before
`t + 1200 + 40 * (n - 1)` and present, with the chat idle, from that time on. -/
theorem tokens_revealed_on_schedule (s : App) (c : ChatState) (fuel ms : Nat)
    (hc : s.chat = some c) (hp : s.doc.fileProcessed = true)
    (hn : ∃ ch ∈ c.input.data, isJsWhiteSpace ch = false)
    (htimers : s.timers = [])
    (hfuel : (jsSplitSpace (responseText s.doc.uploadedFile c.input)).length + 1 ≤ fuel) :
    (∀ (base cell i : Nat) (w : String),
        (jsSplitSpace (responseText s.doc.uploadedFile c.input))[i]? = some w →
        (tokenTimers base cell
            (jsSplitSpace (responseText s.doc.uploadedFile c.input)).length
            (responseText s.doc.uploadedFile c.input) 0
            (jsSplitSpace (responseText s.doc.uploadedFile c.input)))[i]?
          = some { due := base + i * 40,
                   callback := TimerCallback.token cell i w
                     (jsSplitSpace (responseText s.doc.uploadedFile c.input)).length
                     (responseText s.doc.uploadedFile c.input) })
    ∧ (ms < 1200 →
        (elapse fuel ms (pressEnter s)).chat
          = some { c with messages := c.messages ++
                            [{ role := Role.user, content := c.input }],
                          input := "", isLoading := true })
    ∧ (∀ i, i + 1 < (jsSplitSpace (responseText s.doc.uploadedFile c.input)).length →
        1200 + 40 * i ≤ ms → ms < 1200 + 40 * (i + 1) →
        (elapse fuel ms (pressEnter s)).chat
          = some { messages := c.messages ++ [{ role := Role.user, content := c.input }],
                   input := "", isLoading := true,
                   streamingText :=
                     currentTextAfter
                       (jsSplitSpace (responseText s.doc.uploadedFile c.input)) i,
                   isStreaming := true })
    ∧ (ms < 1200 + 40 *
          ((jsSplitSpace (responseText s.doc.uploadedFile c.input)).length - 1) →
        (elapse fuel ms (pressEnter s)).messages
          = c.messages ++ [{ role := Role.user, content := c.input }])
    ∧ (1200 + 40 * ((jsSplitSpace (responseText s.doc.uploadedFile c.input)).length - 1)
          ≤ ms →
        (elapse fuel ms (pressEnter s)).chat
          = some { messages := c.messages ++
                     [{ role := Role.user, content := c.input },
                      { role := Role.assistant,
                        content := responseText s.doc.uploadedFile c.input }],
                   input := "", isLoading := false, streamingText := "",
                   isStreaming := false }) := by
  have hne := jsTrim_ne_empty_of_char c.input hn
  have hpress : pressEnter s
      = { s with
          chat := some { c with messages := c.messages ++
                                  [{ role := Role.user, content := c.input }],
                                input := "", isLoading := true },
          timers := [{ due := s.now + 1200,
                       callback := TimerCallback.reply s.doc.uploadedFile c.input }] } := by
    unfold pressEnter
    rw [hp, if_pos rfl, handleSendMessage_not_blank s c hc hne, htimers, List.nil_append]
  have hbefore : ms < 1200 →
      (elapse fuel ms (pressEnter s)).chat
        = some { c with messages := c.messages ++
                          [{ role := Role.user, content := c.input }],
                        input := "", isLoading := true } := by
    intro hms
    rw [hpress, elapse_chat]
    dsimp only
    rw [runTimers_single_not_due (s.now + ms) fuel _
      { due := s.now + 1200,
        callback := TimerCallback.reply s.doc.uploadedFile c.input } rfl
      (by show s.now + ms < s.now + 1200; omega)]
  have hmid : ∀ i,
      i + 1 < (jsSplitSpace (responseText s.doc.uploadedFile c.input)).length →
      1200 + 40 * i ≤ ms → ms < 1200 + 40 * (i + 1) →
      (elapse fuel ms (pressEnter s)).chat
        = some { messages := c.messages ++ [{ role := Role.user, content := c.input }],
                 input := "", isLoading := true,
                 streamingText :=
                   currentTextAfter
                     (jsSplitSpace (responseText s.doc.uploadedFile c.input)) i,
                 isStreaming := true } := by
    intro i hi hlo hhi
    rw [hpress, elapse_chat]
    dsimp only
    have h := runTimers_reply_partial (s.now + ms) fuel
      { s with
          chat := some { c with messages := c.messages ++
                                  [{ role := Role.user, content := c.input }],
                                input := "", isLoading := true },
          timers := [{ due := s.now + 1200,
                       callback := TimerCallback.reply s.doc.uploadedFile c.input }] }
      { c with messages := c.messages ++ [{ role := Role.user, content := c.input }],
               input := "", isLoading := true }
      s.doc.uploadedFile c.input (s.now + 1200) i rfl rfl (Nat.le_add_right _ _) hi
      (by omega) (by omega) (by omega)
    rw [h.1]
  refine ⟨?_, hbefore, hmid, ?_, ?_⟩
  · intro base cell i w hw
    have h := tokenTimers_getElem? base cell
      (jsSplitSpace (responseText s.doc.uploadedFile c.input)).length
      (responseText s.doc.uploadedFile c.input)
      (jsSplitSpace (responseText s.doc.uploadedFile c.input)) 0 i w hw
    rw [Nat.zero_add] at h
    exact h
  · intro hms
    by_cases hlt : ms < 1200
    · rw [messages_of_chat _ _ (hbefore hlt)]
    · have hi : (ms - 1200) / 40 + 1
          < (jsSplitSpace (responseText s.doc.uploadedFile c.input)).length := by
        omega
      rw [messages_of_chat _ _ (hmid ((ms - 1200) / 40) hi (by omega) (by omega))]
  · intro hms
    rw [hpress, elapse_chat]
    dsimp only
    have h := runTimers_reply (s.now + ms) fuel
      { s with
          chat := some { c with messages := c.messages ++
                                  [{ role := Role.user, content := c.input }],
                                input := "", isLoading := true },
          timers := [{ due := s.now + 1200,
                       callback := TimerCallback.reply s.doc.uploadedFile c.input }] }
      { c with messages := c.messages ++ [{ role := Role.user, content := c.input }],
               input := "", isLoading := true }
      s.doc.uploadedFile c.input (s.now + 1200) rfl rfl (Nat.le_add_right _ _) hfuel
      (by omega)
    rw [h.1]
    dsimp only
    rw [List.append_assoc]
    rfl

/-- Witness for C22: `hello` sent at time 4500 on the chat page with the processed
`a.pdf`; 1250 ms later the words of index 0 and 1 are revealed. -/
theorem tokens_revealed_on_schedule_witness :
    typedPage.doc.fileProcessed = true
    ∧ typedPage.timers = []
    ∧ (jsSplitSpace (responseText (some "a.pdf") "hello")).length = 40
    ∧ currentTextAfter (jsSplitSpace (responseText (some "a.pdf") "hello")) 1 = "Based on"
    ∧ (elapse 41 1250 (pressEnter typedPage)).chat
        = some { messages := [welcomeMessage (some "a.pdf"),
                              { role := Role.user, content := "hello" }],
                 input := "", isLoading := true,
                 streamingText :=
                   currentTextAfter (jsSplitSpace (responseText (some "a.pdf") "hello")) 1,
                 isStreaming := true } :=
  have hlen : (jsSplitSpace (responseText (some "a.pdf") "hello")).length = 40 := by decide
  have h := tokens_revealed_on_schedule typedPage
    { messages := [welcomeMessage (some "a.pdf")], input := "hello",
      isLoading := false, streamingText := "", isStreaming := false } 41 1250
    rfl rfl ⟨'h', by decide, by decide⟩ rfl
    (by show (jsSplitSpace (responseText (some "a.pdf") "hello")).length + 1 ≤ 41
        rw [hlen])
  ⟨rfl, rfl, hlen, by decide,
   h.2.2.1 1
     (by show 1 + 1 < (jsSplitSpace (responseText (some "a.pdf") "hello")).length
         rw [hlen]
         decide)
     (by decide) (by decide)⟩

/-! ## The content of a reply (Chat.js lines 55-57) -/

theorem responseTail_quote : responseTail = "'" ++ String.mk responseTail.data.tail := by
  apply String.ext
  rfl

theorem answerHead_quote :
    "**, here is the answer to: '" = "**, here is the answer to: " ++ "'" := by
  apply String.ext
  rfl

theorem responseText_quotes (u : Option String) (input : String) :
    responseText u input
      = ("Based on **" ++ jsOr u "your document" ++ "**, here is the answer to: ")
          ++ "'" ++ input ++ "'" ++ String.mk responseTail.data.tail := by
  unfold responseText
  rw [answerHead_quote]
  conv_lhs => rw [responseTail_quote]
  simp only [String.append_assoc]

theorem tokenTimers_callback (base cell n : Nat) (rt : String) :
    ∀ (ws : List String) (start : Nat) (t : Timer), t ∈ tokenTimers base cell n rt start ws →
      ∃ index word, t.callback = TimerCallback.token cell index word n rt := by
  intro ws
  induction ws with
  | nil => intro start t h; exact absurd h (List.not_mem_nil t)
  | cons w ws ih =>
    intro start t h
    have hcons : tokenTimers base cell n rt start (w :: ws)
        = { due := base + start * 40, callback := TimerCallback.token cell start w n rt }
          :: tokenTimers base cell n rt (start + 1) ws := rfl
    rw [hcons] at h
    rcases List.mem_cons.mp h with h | h
    · rw [h]
      exact ⟨start, w, rfl⟩
    · exact ih (start + 1) t h

theorem processFileUpload_timers (file : Option File) (s : App) :
    s.timers <+: (processFileUpload file s).timers := by
  cases file with
  | none => exact List.prefix_refl _
  | some f =>
    cases hv : (validateFile (some f) s.uploadError).1 with
    | false =>
      rw [processFileUpload_rejected f s hv]
    | true =>
      rw [processFileUpload_accepted f s hv, handleFileUpload_timers]
      exact List.prefix_append _ _

set_option maxRecDepth 100000 in
/-- C23: the response is the template filled with the `uploadedFile` and the
`input` of the closure: it starts with `Based on **` followed by the document name,
or by `your document` when the name is null or empty, and holds the input as it is
between single quotes.  `handleSendMessage` puts the `uploadedFile` and the `input`
of the moment of the send into the reply timer; uploads and removals leave the
pending timers as they are; the reply callback, in whatever state it runs, gives
every word timer the response built from the closure; and the last word callback,
in whatever state it runs, appends a message with that response.  In the two runs
where `b.pdf` replaces `a.pdf`, or the document is removed, 100 ms after `hello`
was sent, the reply still names `a.pdf`. -/
theorem reply_content_fixed_at_send (s : App) (c : ChatState) (u : Option String)
    (input : String) :
    (∀ name, name ≠ "" →
        ("Based on **" ++ name).data <+: (responseText (some name) input).data)
    ∧ ("Based on **" ++ "your document").data <+: (responseText none input).data
    ∧ ("Based on **" ++ "your document").data <+: (responseText (some "") input).data
    ∧ (∃ before after, responseText u input = before ++ "'" ++ input ++ "'" ++ after)
    ∧ (s.chat = some c → jsTrim c.input ≠ "" →
        (handleSendMessage s).timers
          = s.timers ++ [{ due := s.now + 1200,
                           callback := TimerCallback.reply s.doc.uploadedFile c.input }])
    ∧ (∀ f, s.timers <+: (handleFileUpload f s).timers)
    ∧ (∀ file, s.timers <+: (processFileUpload file s).timers)
    ∧ (removeDocument s).timers = s.timers
    ∧ (runCallback (TimerCallback.reply u input) s).timers
        = s.timers ++ tokenTimers s.now s.currentTexts.length
            (jsSplitSpace (responseText u input)).length (responseText u input) 0
            (jsSplitSpace (responseText u input))
    ∧ (∀ t ∈ tokenTimers s.now s.currentTexts.length
            (jsSplitSpace (responseText u input)).length (responseText u input) 0
            (jsSplitSpace (responseText u input)),
        ∃ index word, t.callback
          = TimerCallback.token s.currentTexts.length index word
              (jsSplitSpace (responseText u input)).length (responseText u input))
    ∧ (∀ cell index word n, s.chat = some c → index = n - 1 →
        (runCallback (TimerCallback.token cell index word n (responseText u input)) s).messages
          = c.messages ++ [{ role := Role.assistant, content := responseText u input }])
    ∧ (elapse 100 3000 replacedWhilePending).doc.uploadedFile = some "b.pdf"
    ∧ (elapse 100 3000 replacedWhilePending).messages
        = [welcomeMessage (some "a.pdf"), { role := Role.user, content := "hello" },
           { role := Role.assistant, content := responseText (some "a.pdf") "hello" }]
    ∧ (elapse 100 3000 removedWhilePending).doc.uploadedFile = none
    ∧ (elapse 100 3000 removedWhilePending).messages
        = [welcomeMessage (some "a.pdf"), { role := Role.user, content := "hello" },
           { role := Role.assistant, content := responseText (some "a.pdf") "hello" }] := by
  have hprefix : ∀ (v : Option String) (doc : String), jsOr v "your document" = doc →
      ("Based on **" ++ doc).data <+: (responseText v input).data := by
    intro v doc hv
    unfold responseText
    rw [hv]
    refine ⟨"**, here is the answer to: '".data ++ (input.data ++ responseTail.data), ?_⟩
    simp only [String.data_append, List.append_assoc]
  refine ⟨?_, hprefix none _ rfl, hprefix (some "") _ rfl,
    ⟨_, _, responseText_quotes u input⟩, ?_, ?_,
    fun file => processFileUpload_timers file s, ?_, rfl,
    tokenTimers_callback _ _ _ _ _ _, ?_, rfl, rfl, rfl, rfl⟩
  · intro name hne
    refine hprefix (some name) name ?_
    unfold jsOr
    have ht : truthy (some name) = true := by
      show (name != "") = true
      rw [bne_iff_ne]
      exact hne
    rw [if_pos ht]
    rfl
  · intro hc hn
    rw [handleSendMessage_not_blank s c hc hn]
  · intro f
    rw [handleFileUpload_timers]
    exact List.prefix_append _ _
  · rw [removeDocument_eq]
  · intro cell index word n hc hlast
    exact tokenCallback_messages_last cell index word n (responseText u input) s c hc hlast


/-! ## The guards of the welcome effect and of a send -/

set_option maxRecDepth 100000 in
/-- C21 (defect in the code): the welcome effect in a render in which
`newlyProcessed` is set and the processed document is the PDF whose `name` is the
empty string.  The guard `newlyProcessed && uploadedFile` is false for that name,
so the effect does nothing: on the fresh page the message list stays empty, on the
page that showed the welcome message of `a.pdf` that message stays, no welcome
message for the current document is produced, and `newlyProcessed` stays set. -/
theorem welcomeEffect_skips_unnamed :
    unnamedProcessedPage.doc.newlyProcessed = true
    ∧ unnamedProcessedPage.doc.uploadedFile = some ""
    ∧ unnamedProcessedPage.doc.inProcessed = true
    ∧ unnamedProcessedPage.messages = []
    ∧ welcomeEffect unnamedProcessedPage = unnamedProcessedPage
    ∧ (welcomeEffect unnamedProcessedPage).messages = []
    ∧ (welcomeEffect unnamedProcessedPage).doc.newlyProcessed = true
    ∧ unnamedReplacementPage.doc.newlyProcessed = true
    ∧ unnamedReplacementPage.doc.uploadedFile = some ""
    ∧ unnamedReplacementPage.doc.inProcessed = true
    ∧ unnamedReplacementPage.messages = [welcomeMessage (some "a.pdf")]
    ∧ welcomeEffect unnamedReplacementPage = unnamedReplacementPage
    ∧ (welcomeEffect unnamedReplacementPage).messages = [welcomeMessage (some "a.pdf")]
    ∧ (welcomeEffect unnamedReplacementPage).messages ≠ [welcomeMessage (some "")]
    ∧ (welcomeEffect unnamedReplacementPage).doc.newlyProcessed = true :=
  ⟨rfl, rfl, rfl, rfl, rfl, rfl, rfl, rfl, rfl, rfl, rfl, rfl, rfl,
   fun h => absurd (congrArg (fun l => l.map (fun m => m.content.length)) h) (by decide),
   rfl⟩

/-- C12 (counterexample): `hello` is typed on the page with the processed `a.pdf`
and the document is then removed, so `fileProcessed` is false and the input is not
blank.  `handleSendMessage` does not test `fileProcessed`: run on that state it
appends the user message, clears the input, sets `isLoading` and sets the reply
timer, due at 5700. -/
theorem handleSendMessage_sends_when_not_processed :
    (removeDocument typedPage).doc.fileProcessed = false
    ∧ (removeDocument typedPage).messages = [welcomeMessage (some "a.pdf")]
    ∧ (removeDocument typedPage).chat.map ChatState.input = some "hello"
    ∧ (removeDocument typedPage).chat.map ChatState.isLoading = some false
    ∧ (removeDocument typedPage).timers = []
    ∧ (handleSendMessage (removeDocument typedPage)).messages
        = [welcomeMessage (some "a.pdf"), { role := Role.user, content := "hello" }]
    ∧ (handleSendMessage (removeDocument typedPage)).chat.map ChatState.input = some ""
    ∧ (handleSendMessage (removeDocument typedPage)).chat.map ChatState.isLoading
        = some true
    ∧ (handleSendMessage (removeDocument typedPage)).timers
        = [{ due := 5700, callback := TimerCallback.reply none "hello" }]
    ∧ handleSendMessage (removeDocument typedPage) ≠ removeDocument typedPage :=
  ⟨rfl, rfl, rfl, rfl, rfl, rfl, rfl, rfl, rfl,
   fun h => absurd (congrArg (fun s => s.timers.length) h) (by decide)⟩

end RagUI
